import Mathlib

/-!
Outlaws core audio: voice allocator, buffer cache, sound layers and events

A shallow embedding of `src/AudioEvent.h` (`AudioAllocator`, `EventDescription`,
`SoundLayer`, `SoundEvent`).

Conventions of the embedding

* `float` values are rationals: comparisons and arithmetic are exact, NaN and
  rounding are outside the model.  The constant `0.001f` is `1/1000`.
* Non-null cAudio pointers (`IAudioSource*`, `IAudioBuffer*`, `IAudioManager*`)
  are natural-number handles; a nullable pointer is an `Option` of a handle.
* The cAudio backend is an oracle (`Backend`) that answers the queries made
  during one call of an allocator method; every call that creates, changes or
  releases a backend object is recorded in a log of `BackendCall`s.  Read-only
  queries (`isPlaying`, `getVolume`, `calculateGain` of a source) are answered
  by the oracle and not logged.
* `int` / `uint` are `Int` / `Nat`; where the source wraps modulo `2^32`
  (`EventDescription::advance`) the reduction is explicit.  Collection sizes are
  assumed to stay below `2^31`, so loop counters do not wrap.
* Locking and the listener position are not modelled, but the pointer `mutex` is part
  of the allocator state: a method that takes the lock dereferences it, and through a
  null pointer that method has no result (`none`).
* A pointer to an `EventDescription` is an address (`DescPtr`); a method that reads
  through the pointer takes the description pointed to as an argument and returns the
  value of its shared cursor `m_index` afterwards.
-/

namespace AudioEvent

/-! ## Data model -/

/-- Handle of a `cAudio::IAudioSource` (a voice). -/
abbrev Voice := Nat

/-- Handle of a `cAudio::IAudioBuffer`. -/
abbrev Buffer := Nat

/-- Handle of a `cAudio::IAudioManager`. -/
abbrev Mgr := Nat

/-- Interned string used as sample identifier. -/
abbrev lstring := String

/-- The constant `kStreamSources`. -/
def kStreamSources : Nat := 2

/-- The constant `kSoundSources = 32 - kStreamSources`. -/
def kSoundSources : Nat := 32 - kStreamSources

/-- The struct `AudioAllocator::SourceData`: bookkeeping of one static voice. -/
structure SourceData where
  source : Voice
  priority : Int
  gain : ℚ
deriving DecidableEq, Repr

/-- What the pointer `AudioAllocator::mutex` points to when it is not null: the mutex of
the manager (`m_mgr->getMutex()`) or the member `m_dummy`. -/
inductive MutexRef where
  | manager
  | dummy
deriving DecidableEq, Repr

/-- The data members of `AudioAllocator` (without `m_dummy` and the listener position);
`mutex` is the public pointer member, null until `init()` succeeds. -/
structure AudioAllocator where
  m_mgr : Option Mgr
  m_sources : List SourceData
  m_streamSources : List Voice
  m_buffers : List (lstring × Option Buffer)
  mutex : Option MutexRef
deriving DecidableEq, Repr

/-- Calls into cAudio that create, change or release backend objects. -/
inductive BackendCall where
  | createAudioManager
  | setSpeedOfSound
  | setDopplerFactor
  | getMutex
  | createStatic
  | create (file : lstring)
  | createBuffer (path : lstring)
  | stop (v : Voice)
  | drop (v : Voice)
  | dropBuffer (b : Buffer)
  | releaseAllSources
  | logError
  | logDebug
  | destroyAudioManager
  | unRegisterEventHandler (v : Voice)
  | registerEventHandler (v : Voice)
  | setBuffer (v : Voice) (b : Buffer)
  | setPitch (v : Voice) (x : ℚ)
  | setVolume (v : Voice) (x : ℚ)
  | seek (v : Voice) (x : ℚ)
  | grab (v : Voice)
  | setPosition (v : Voice)
  | setVelocity (v : Voice)
  | setRolloffFactor (v : Voice) (x : ℚ)
  | setMinDistance (v : Voice) (x : ℚ)
  | setMaxAttenuationDistance (v : Voice) (x : ℚ)
  | play2d (v : Voice) (loop : Bool)
  | play3d (v : Voice) (loop : Bool)
deriving DecidableEq, Repr

/-- Answers of the cAudio backend during one call of an allocator method. -/
structure Backend where
  createAudioManager : Option Mgr
  createStatic : Option Voice
  create : lstring → Option Voice
  createBuffer : lstring → Option Buffer
  isPlaying : Voice → Bool
  calculateGain : Voice → ℚ
  getVolume : Voice → ℚ

/-- Result of a method call: return value, allocator afterwards, backend calls made. -/
structure Outcome (α : Type) where
  ret : α
  st : AudioAllocator
  calls : List BackendCall

/-- Modelled from the spec: `vec_pop` (declared outside `src/`) removes the slot at
index `i` ("remove its slot").  The spec does not fix the order of the slots that stay;
here the last element is moved into the hole, and the results about the slots that stay
are stated up to permutation.  An index out of range leaves the vector as it is. -/
def vec_pop {α : Type} (v : List α) (i : Nat) : List α :=
  match v.getLast? with
  | none => v
  | some last => if i < v.length then (v.set i last).dropLast else v

/-! ## AudioAllocator -/

/-- The method `AudioAllocator::init`. -/
def init (be : Backend) (a : AudioAllocator) : Outcome Bool :=
  if a.m_mgr.isSome then
    ⟨true, a, []⟩
  else
    match be.createAudioManager with
    | none => ⟨false, { a with m_mgr := none }, [.createAudioManager]⟩
    | some m =>
      ⟨true, { a with m_mgr := some m, mutex := some .manager },
        [.createAudioManager, .setSpeedOfSound, .setDopplerFactor, .getMutex]⟩

/-- A freshly constructed allocator: the constructor calls `init()`. -/
def AudioAllocator.new (be : Backend) : AudioAllocator :=
  (init be ⟨none, [], [], [], none⟩).st

/-- Stop and drop every voice of a list, in order. -/
def stopDropAll (vs : List Voice) : List BackendCall :=
  vs.flatMap fun v => [.stop v, .drop v]

/-- The method `AudioAllocator::releaseAll`.  It ends with `m_mgr->releaseAllSources()`;
with a null `m_mgr` that is a call through a null pointer and the result is `none`. -/
def releaseAll (a : AudioAllocator) : Option (Outcome Unit) :=
  let c1 := stopDropAll (a.m_sources.map (·.source))
  let c2 := stopDropAll a.m_streamSources
  let c3 := a.m_buffers.filterMap fun x => x.2.map BackendCall.dropBuffer
  match a.m_mgr with
  | none => none
  | some m =>
    some ⟨(), ⟨some m, [], [], [], a.mutex⟩, c1 ++ c2 ++ c3 ++ [.releaseAllSources]⟩

/-- The method `AudioAllocator::shutdown`: `mutex` is pointed to `m_dummy`, then
`releaseAll()`, then the manager is destroyed and `m_mgr` set to null; `none` when
`releaseAll` goes through a null `m_mgr`. -/
def shutdown (a : AudioAllocator) : Option (Outcome Unit) :=
  match releaseAll { a with mutex := some .dummy } with
  | none => none
  | some r => some ⟨(), { r.st with m_mgr := none }, r.calls ++ [.destroyAudioManager]⟩

/-- The method `AudioAllocator::getSourcesUsed` (a `uint` sum).  It first locks `*mutex`;
with a null `mutex` that is a null dereference and the result is `none`. -/
def getSourcesUsed (a : AudioAllocator) : Option Nat :=
  match a.mutex with
  | none => none
  | some _ => some ((a.m_streamSources.length + a.m_sources.length) % 2 ^ 32)

/-- The method `AudioAllocator::getBufferCount`. -/
def getBufferCount (a : AudioAllocator) : Nat := a.m_buffers.length % 2 ^ 32

/-- Loop state of `AudioAllocator::onUpdate`. -/
structure UpdateLoop where
  i : Nat
  srcs : List SourceData
  calls : List BackendCall

/-- The loop of `onUpdate`; `fuel` bounds the number of iterations. -/
def onUpdateLoop (be : Backend) : Nat → UpdateLoop → UpdateLoop
  | 0, s => s
  | fuel + 1, s =>
    match s.srcs[s.i]? with
    | none => s
    | some sd =>
      if !be.isPlaying sd.source then
        onUpdateLoop be fuel ⟨s.i, vec_pop s.srcs s.i, s.calls ++ [.drop sd.source]⟩
      else
        onUpdateLoop be fuel
          ⟨s.i + 1, s.srcs.set s.i { sd with gain := be.calculateGain sd.source }, s.calls⟩

/-- The method `AudioAllocator::onUpdate`. -/
def onUpdate (be : Backend) (a : AudioAllocator) : Outcome Unit :=
  let r := onUpdateLoop be a.m_sources.length ⟨0, a.m_sources, []⟩
  ⟨(), { a with m_sources := r.srcs }, r.calls⟩

/-- Locals of the eviction scan in `getSource`. -/
structure Scan where
  minVol : ℚ
  minIdx : Int
  minPri : Int
  i : Int
deriving DecidableEq, Repr

/-- One iteration of the `foreach` in `getSource`. -/
def scanStep (s : Scan) (sd : SourceData) : Scan :=
  if sd.priority < s.minPri then
    { minVol := sd.gain, minPri := sd.priority, minIdx := s.i, i := s.i + 1 }
  else if sd.priority = s.minPri then
    if sd.gain < s.minVol then
      { minIdx := s.i, minPri := sd.priority, minVol := sd.gain, i := s.i + 1 }
    else
      { s with i := s.i + 1 }
  else
    { s with i := s.i + 1 }

/-- The eviction scan of `getSource` over all slots, seeded with the request. -/
def scan (srcs : List SourceData) (newGain : ℚ) (priority : Int) : Scan :=
  srcs.foldl scanStep ⟨newGain, -1, priority, 0⟩

/-- The tail of `getSource`: create a static voice and record its slot. -/
def createSlot (be : Backend) (a : AudioAllocator) (newGain : ℚ) (priority : Int)
    (calls : List BackendCall) : Outcome (Option Voice) :=
  match be.createStatic with
  | none => ⟨none, a, calls ++ [.createStatic]⟩
  | some usrc =>
    ⟨some usrc, { a with m_sources := a.m_sources ++ [⟨usrc, priority, newGain⟩] },
      calls ++ [.createStatic]⟩

/-- The method `AudioAllocator::getSource`, with the capacity `kSoundSources` as the
parameter `cap`. -/
def getSourceCap (cap : Nat) (be : Backend) (a : AudioAllocator) (newGain : ℚ)
    (priority : Int) : Outcome (Option Voice) :=
  if newGain < 1 / 1000 then
    ⟨none, a, []⟩
  else
    let r := init be a
    if !r.ret then
      ⟨none, r.st, r.calls⟩
    else
      let a1 := r.st
      if cap ≤ a1.m_sources.length then
        let sc := scan a1.m_sources newGain priority
        if sc.minIdx < 0 then
          ⟨none, a1, r.calls⟩
        else
          match a1.m_sources[sc.minIdx.toNat]? with
          | none => ⟨none, a1, r.calls⟩
          | some e =>
            createSlot be { a1 with m_sources := vec_pop a1.m_sources sc.minIdx.toNat }
              newGain priority (r.calls ++ [.stop e.source, .drop e.source])
      else
        createSlot be a1 newGain priority r.calls

/-- The method `AudioAllocator::getSource`. -/
def getSource (be : Backend) (a : AudioAllocator) (newGain : ℚ) (priority : Int) :
    Outcome (Option Voice) :=
  getSourceCap kSoundSources be a newGain priority

/-- Loop state of the pruning loop in `getStreamSource`. -/
structure StreamLoop where
  i : Nat
  srcs : List Voice
  minVol : ℚ
  minVolIdx : Int
  calls : List BackendCall

/-- The pruning loop of `getStreamSource`; `fuel` bounds the number of iterations. -/
def streamLoop (be : Backend) : Nat → StreamLoop → StreamLoop
  | 0, s => s
  | fuel + 1, s =>
    match s.srcs[s.i]? with
    | none => s
    | some v =>
      if !be.isPlaying v then
        streamLoop be fuel { s with srcs := vec_pop s.srcs s.i, calls := s.calls ++ [.stop v, .drop v] }
      else
        let vol := be.getVolume v
        if vol < s.minVol then
          streamLoop be fuel { s with minVol := vol, minVolIdx := s.i, i := s.i + 1 }
        else
          streamLoop be fuel { s with i := s.i + 1 }

/-- The tail of `getStreamSource`: open the streaming voice. -/
def createStream (be : Backend) (a : AudioAllocator) (file : lstring)
    (calls : List BackendCall) : Outcome (Option Voice) :=
  match be.create file with
  | some src =>
    ⟨some src, { a with m_streamSources := a.m_streamSources ++ [src] }, calls ++ [.create file]⟩
  | none => ⟨none, a, calls ++ [.create file, .logDebug]⟩

/-- The method `AudioAllocator::getStreamSource`. -/
def getStreamSource (be : Backend) (a : AudioAllocator) (file : lstring) :
    Outcome (Option Voice) :=
  let r := init be a
  if !r.ret then
    ⟨none, r.st, r.calls⟩
  else
    let a1 := r.st
    if kStreamSources ≤ a1.m_streamSources.length then
      let p := streamLoop be a1.m_streamSources.length ⟨0, a1.m_streamSources, 1, -1, []⟩
      if kStreamSources ≤ p.srcs.length then
        if p.minVolIdx < 0 then
          ⟨none, { a1 with m_streamSources := p.srcs }, r.calls ++ p.calls⟩
        else
          match p.srcs[p.minVolIdx.toNat]? with
          | none => ⟨none, { a1 with m_streamSources := p.srcs }, r.calls ++ p.calls⟩
          | some v =>
            createStream be { a1 with m_streamSources := vec_pop p.srcs p.minVolIdx.toNat } file
              (r.calls ++ p.calls ++ [.stop v, .drop v])
      else
        createStream be { a1 with m_streamSources := p.srcs } file (r.calls ++ p.calls)
    else
      createStream be a1 file r.calls

/-- Lookup in the `std::map` `m_buffers`. -/
def bufLookup (m : List (lstring × Option Buffer)) (k : lstring) : Option (Option Buffer) :=
  (m.find? fun x => x.1 == k).map (·.2)

/-- Assignment through the reference `m_buffers[k]`: sets the entry of `k`, creating
it when absent.  Entries are kept in insertion order; the key order of `std::map`
is not modelled. -/
def bufSet (m : List (lstring × Option Buffer)) (k : lstring) (b : Option Buffer) :
    List (lstring × Option Buffer) :=
  match m with
  | [] => [(k, b)]
  | x :: rest => if x.1 == k then (k, b) :: rest else x :: bufSet rest k b

/-- The method `AudioAllocator::getBuffer`. -/
def getBuffer (be : Backend) (a : AudioAllocator) (fname : lstring) :
    Outcome (Option Buffer) :=
  let r := init be a
  if !r.ret then
    ⟨none, r.st, r.calls⟩
  else
    let a1 := r.st
    match bufLookup a1.m_buffers fname with
    | some (some buf) => ⟨some buf, a1, r.calls⟩
    | _ =>
      match be.createBuffer fname with
      | some buf =>
        ⟨some buf, { a1 with m_buffers := bufSet a1.m_buffers fname (some buf) },
          r.calls ++ [.createBuffer fname]⟩
      | none =>
        ⟨none, { a1 with m_buffers := bufSet a1.m_buffers fname none },
          r.calls ++ [.createBuffer fname, .logError]⟩

/-- The function `max` on floats: `a < b ? b : a`. -/
def fmax (a b : ℚ) : ℚ := if a < b then b else a

/-- The function `min` on floats: `b < a ? b : a`. -/
def fmin (a b : ℚ) : ℚ := if b < a then b else a

/-- The method `AudioAllocator::calculateGain`; `dist0` is the value of
`distance(pos, m_lsnrPos)`. -/
def calculateGain (dist0 refDist maxDist rolloff : ℚ) : ℚ :=
  let dist := fmax dist0 refDist
  let dist := fmin dist maxDist
  let gain := refDist / (refDist + rolloff * (dist - refDist))
  gain

/-- The inverse-distance-clamped model as the specification words it:
`d = clamp(distance, refDist, maxDist)`, `gain = refDist / (refDist + rolloff * (d - refDist))`. -/
def calculateGainSpec (dist0 refDist maxDist rolloff : ℚ) : ℚ :=
  refDist / (refDist + rolloff * (min (max dist0 refDist) maxDist - refDist))

/-! ## EventDescription -/

/-- The flag `EventDescription::ROUND_ROBIN = 1<<2`. -/
def ROUND_ROBIN : Nat := 1 <<< 2

/-- The struct `EventDescription` (fields `delay` and `name` left out). -/
structure EventDescription where
  samples : List (List lstring)
  volume : ℚ
  pitch : ℚ
  pitchRandomize : ℚ
  flags : Nat
  rolloff : ℚ
  minDist : ℚ
  maxDist : ℚ
  priority : Int
  m_index : Nat
deriving DecidableEq, Repr

/-- Modelled from the spec: `randrange(lo, hi)` (declared outside `src/`) yields a value
of `[lo, hi)`; `raw` is the outcome of the random source for this draw. -/
def randrange (lo hi raw : Nat) : Nat := lo + raw % (hi - lo)

/-- The `do ... while (m_index == last)` loop of `advance`: draws until the value
differs from `last`; `none` when the given draws run out before that. -/
def redraw (tracks last : Nat) : List Nat → Option Nat
  | [] => none
  | raw :: rest =>
    let m := randrange 0 tracks raw
    if m = last then redraw tracks last rest else some m

/-- The sum `m_index + delta` of a `uint` and an `int`: computed in `uint`, modulo `2^32`. -/
def uintAddInt (m : Nat) (delta : Int) : Nat := (((m : Int) + delta) % (2 ^ 32 : Int)).toNat

/-- The method `EventDescription::advance`; `rnd` are the outcomes of the random source.
The result is the value of `m_index` afterwards, `none` when the random loop has not
ended within `rnd`. -/
def advance (d : EventDescription) (delta : Int) (rnd : List Nat) : Option Nat :=
  match d.samples with
  | [] => some d.m_index
  | layer0 :: _ =>
    let tracks := layer0.length % 2 ^ 32
    if tracks ≤ 1 then
      some 0
    else if d.flags &&& ROUND_ROBIN ≠ 0 then
      some (uintAddInt d.m_index delta % tracks)
    else
      redraw tracks d.m_index rnd

/-! ## Sequences of calls -/

/-- A call of one of the methods that change the voice collections. -/
inductive Call where
  | getSource (newGain : ℚ) (priority : Int)
  | getStreamSource (file : lstring)
  | onUpdate
  | releaseAll

/-- The allocator after one call answered by the backend `be`; `none` when the call
goes through a null manager. -/
def step (be : Backend) (a : AudioAllocator) : Call → Option AudioAllocator
  | .getSource g p => some (getSource be a g p).st
  | .getStreamSource f => some (getStreamSource be a f).st
  | .onUpdate => some (onUpdate be a).st
  | .releaseAll => (releaseAll a).map (·.st)

/-- The allocator states passed through by a sequence of calls, each with the backend
answering it: the start state and the state after every call that completes. -/
def reach (a : AudioAllocator) : List (Backend × Call) → List AudioAllocator
  | [] => [a]
  | (be, c) :: rest =>
    a :: (match step be a c with
      | none => []
      | some a1 => reach a1 rest)

/-- The allocator after a sequence of `getBuffer` calls, each with its backend. -/
def getBuffers (a : AudioAllocator) : List (Backend × lstring) → AudioAllocator
  | [] => a
  | (be, f) :: rest => getBuffers (getBuffer be a f).st rest

/-- The backend calls made by a sequence of `getBuffer` calls, each with its backend. -/
def getBuffersLog (a : AudioAllocator) : List (Backend × lstring) → List BackendCall
  | [] => []
  | (be, f) :: rest => (getBuffer be a f).calls ++ getBuffersLog (getBuffer be a f).st rest

/-- Successive `advance` calls on one description, each with its `delta` and the outcomes
of the random source for that call; the result is the description after the last call,
`none` when one of the calls has not ended. -/
def advanceSeq (d : EventDescription) : List (Int × List Nat) → Option EventDescription
  | [] => some d
  | (delta, rnd) :: rest =>
    match advance d delta rnd with
    | none => none
    | some m => advanceSeq { d with m_index := m } rest

/-- The slot `sd` with its recorded gain refreshed from the voice (`onUpdate`). -/
def refreshGain (be : Backend) (sd : SourceData) : SourceData :=
  { sd with gain := be.calculateGain sd.source }

/-! ## SoundLayer -/

/-- Address of an `EventDescription`. -/
abbrev DescPtr := Nat

/-- The flag `EventDescription::STREAM = 1<<0`. -/
def STREAM : Nat := 1 <<< 0

/-- The flag `EventDescription::LOOP = 1<<1`. -/
def LOOP : Nat := 1 <<< 1

/-- The data members of `SoundLayer`; `m_allocator` records whether the pointer is set. -/
structure SoundLayer where
  m_se : Option DescPtr
  m_layer : Nat
  m_volume : ℚ
  m_pitch : ℚ
  m_offset : ℚ
  m_loop : Bool
  m_relative : Bool
  m_source : Option Voice
  m_allocator : Bool
deriving DecidableEq, Repr

/-- The constructor `SoundLayer()`: the member initialisers. -/
def SoundLayer.new : SoundLayer :=
  { m_se := none, m_layer := 0, m_volume := 1, m_pitch := 1, m_offset := 0, m_loop := false,
    m_relative := false, m_source := none, m_allocator := false }

/-- The constructor `SoundLayer(se, layer)`. -/
def SoundLayer.bound (se : Option DescPtr) (layer : Nat) : SoundLayer :=
  { SoundLayer.new with m_se := se, m_layer := layer }

/-- Result of a `SoundLayer` method: return value, layer afterwards, the cursor `m_index`
of the description afterwards, allocator afterwards, backend calls made. -/
structure LayerOutcome (α : Type) where
  ret : α
  layer : SoundLayer
  m_index : Nat
  alloc : AudioAllocator
  calls : List BackendCall

/-- The method `SoundLayer::getSamples`: `m_se->samples[m_layer]`; a layer index outside
the description reads as the empty list. -/
def SoundLayer.getSamples (l : SoundLayer) (se : EventDescription) : List lstring :=
  se.samples.getD l.m_layer []

/-- The method `SoundLayer::getSample`: `getSamples()[m_se->m_index]`; a cursor outside
the list reads as the empty string. -/
def SoundLayer.getSample (l : SoundLayer) (se : EventDescription) : lstring :=
  (l.getSamples se).getD se.m_index ""

/-- The value `min(m_se->m_index, (uint)getSamples().size()-1)` that `prepare` stores in
the cursor, with the `uint` subtraction modulo `2^32`. -/
def SoundLayer.clampIndex (l : SoundLayer) (se : EventDescription) : Nat :=
  min se.m_index (((l.getSamples se).length % 2 ^ 32 + (2 ^ 32 - 1)) % 2 ^ 32)

/-- The end of a successful `prepare`, from `m_allocator = alloc` on. -/
def SoundLayer.configure (jitter : ℚ) (l : SoundLayer) (se : EventDescription) (idx : Nat)
    (alloc : AudioAllocator) (v : Voice) (calls : List BackendCall) :
    LayerOutcome (Option Voice) :=
  ⟨some v, { l with m_source := some v, m_allocator := true }, idx, alloc,
    calls ++ [.setPitch v (l.m_pitch * (se.pitch + jitter)), .setVolume v (l.m_volume * se.volume),
      .seek v l.m_offset, .grab v, .registerEventHandler v]⟩

/-- The method `SoundLayer::prepare`.  `se` is the description `m_se` points to,
`epsilon` the constant of that name (declared outside `src/`), `jitter` the outcome of
`randrange(-pitchRandomize, pitchRandomize)`, `be` the backend during the call. -/
def SoundLayer.prepare (epsilon : ℚ) (be : Backend) (jitter : ℚ) (l : SoundLayer)
    (se : EventDescription) (alloc : AudioAllocator) (gain3d : ℚ) :
    LayerOutcome (Option Voice) :=
  match l.m_source with
  | some v => ⟨some v, l, se.m_index, alloc, []⟩
  | none =>
    if (l.getSamples se).isEmpty then
      ⟨none, l, se.m_index, alloc, []⟩
    else
      let vol := gain3d * se.volume * l.m_volume
      if vol < epsilon then
        ⟨none, l, se.m_index, alloc, []⟩
      else
        let idx := l.clampIndex se
        let sample := l.getSample { se with m_index := idx }
        if se.flags &&& STREAM ≠ 0 then
          let r := getStreamSource be alloc sample
          match r.ret with
          | none => ⟨none, l, idx, r.st, r.calls⟩
          | some v => l.configure jitter se idx r.st v r.calls
        else
          let r := getSource be alloc vol se.priority
          match r.ret with
          | none => ⟨none, l, idx, r.st, r.calls⟩
          | some v =>
            let b := getBuffer be r.st sample
            match b.ret with
            | none => ⟨none, l, idx, b.st, r.calls ++ b.calls ++ [.stop v]⟩
            | some buf => l.configure jitter se idx b.st v (r.calls ++ b.calls ++ [.setBuffer v buf])

/-- The lock `cAudioMutexBasicLock l(*m_allocator->mutex)` of the callbacks can be
taken: `m_allocator` is set and the `mutex` of the allocator `alloc` it points to is
not null. -/
def SoundLayer.canLock (l : SoundLayer) (alloc : AudioAllocator) : Bool :=
  l.m_allocator && alloc.mutex.isSome

/-- The callback `SoundLayer::onRelease`; `alloc` is the allocator `m_allocator` points
to.  It first locks `*m_allocator->mutex`; through a null pointer that is a null
dereference and the result is `none`. -/
def SoundLayer.onRelease (l : SoundLayer) (alloc : AudioAllocator) :
    Option (SoundLayer × List BackendCall) :=
  if l.canLock alloc then
    some ({ l with m_source := none }, [])
  else
    none

/-- The callback `SoundLayer::onStop`; `alloc` is the allocator `m_allocator` points to.
It first locks `*m_allocator->mutex`; through a null pointer that is a null dereference
and the result is `none`. -/
def SoundLayer.onStop (l : SoundLayer) (alloc : AudioAllocator) :
    Option (SoundLayer × List BackendCall) :=
  if l.canLock alloc then
    match l.m_source with
    | some v =>
      some ({ l with m_source := none, m_offset := 0 }, [.unRegisterEventHandler v, .drop v])
    | none => some ({ l with m_offset := 0 }, [])
  else
    none

/-- The method `SoundLayer::isPlaying`. -/
def SoundLayer.isPlaying (be : Backend) (l : SoundLayer) : Bool :=
  match l.m_source with
  | some v => be.isPlaying v
  | none => false

/-- The method `SoundLayer::play2d`. -/
def SoundLayer.play2d (epsilon : ℚ) (be : Backend) (jitter : ℚ) (l : SoundLayer)
    (se : EventDescription) (alloc : AudioAllocator) : LayerOutcome Unit :=
  let r := l.prepare epsilon be jitter se alloc 1
  match r.ret with
  | none => ⟨(), r.layer, r.m_index, r.alloc, r.calls⟩
  | some v =>
    ⟨(), { r.layer with m_relative := true }, r.m_index, r.alloc,
      r.calls ++ [.setPosition v, .setVelocity v, .setRolloffFactor v 1,
        .play2d v (decide (se.flags &&& LOOP ≠ 0) || r.layer.m_loop)]⟩

/-- The method `SoundLayer::play3d`; `dist0` is the distance of `pos` to the listener. -/
def SoundLayer.play3d (epsilon : ℚ) (be : Backend) (jitter : ℚ) (l : SoundLayer)
    (se : EventDescription) (alloc : AudioAllocator) (dist0 : ℚ) : LayerOutcome Unit :=
  let gain3d := calculateGain dist0 se.minDist se.maxDist se.rolloff
  let r := l.prepare epsilon be jitter se alloc gain3d
  match r.ret with
  | none => ⟨(), r.layer, r.m_index, r.alloc, r.calls⟩
  | some v =>
    ⟨(), { r.layer with m_relative := false }, r.m_index, r.alloc,
      r.calls ++ [.setVelocity v, .setMinDistance v se.minDist,
        .setMaxAttenuationDistance v se.maxDist, .setRolloffFactor v se.rolloff,
        .play3d v (decide (se.flags &&& LOOP ≠ 0) || r.layer.m_loop)]⟩

/-- The method `SoundLayer::stop`.  The handler is unregistered first, so the voice's
`stop()` does not call back into this layer and `m_source` is still set after it. -/
def SoundLayer.stop (l : SoundLayer) : SoundLayer × List BackendCall :=
  match l.m_source with
  | some v => ({ l with m_source := none }, [.unRegisterEventHandler v, .stop v, .drop v])
  | none => (l, [])

/-! ## SoundEvent -/

/-- The constant `kMaxSoundLayers`. -/
def kMaxSoundLayers : Nat := 3

/-- The data members of `SoundEvent` (without position, velocity and zone); `m_layers`
is the array of `kMaxSoundLayers` layers. -/
structure SoundEvent where
  m_se : Option DescPtr
  m_layers : List SoundLayer
  m_layerCount : Nat
deriving DecidableEq, Repr

/-- The constructor `SoundEvent()`. -/
def SoundEvent.new : SoundEvent :=
  { m_se := none, m_layers := List.replicate kMaxSoundLayers SoundLayer.new, m_layerCount := 0 }

/-- The method `SoundEvent::setDescription`; `d` is the description `se` points to. -/
def SoundEvent.setDescription (e : SoundEvent) (se : Option DescPtr) (d : EventDescription) :
    SoundEvent :=
  match se with
  | some p =>
    let count := min (d.samples.length % 2 ^ 32) kMaxSoundLayers
    { m_se := some p
      m_layerCount := count
      m_layers := (List.range count).foldl
        (fun layers i => layers.set i (SoundLayer.bound (some p) i)) e.m_layers }
  | none => { e with m_se := none, m_layerCount := 0 }

/-- Result of a `SoundEvent` method: event afterwards, the cursor `m_index` of the
description afterwards, allocator afterwards, backend calls made. -/
structure EventOutcome where
  event : SoundEvent
  m_index : Nat
  alloc : AudioAllocator
  calls : List BackendCall

/-- One round of the loops `for (i < m_layerCount) m_layers[i].play(...)`: `play` is the
layer method, called with the current cursor and allocator. -/
def SoundEvent.playLayer
    (play : SoundLayer → EventDescription → AudioAllocator → LayerOutcome Unit)
    (d : EventDescription) (s : EventOutcome) (i : Nat) : EventOutcome :=
  match s.event.m_layers[i]? with
  | none => s
  | some l =>
    let r := play l { d with m_index := s.m_index } s.alloc
    ⟨{ s.event with m_layers := s.event.m_layers.set i r.layer }, r.m_index, r.alloc,
      s.calls ++ r.calls⟩

/-- The method `SoundEvent::play2d`; `d` is the description `m_se` points to, `bes i` and
`jitters i` the backend and the pitch jitter while layer `i` is played. -/
def SoundEvent.play2d (epsilon : ℚ) (bes : Nat → Backend) (jitters : Nat → ℚ) (e : SoundEvent)
    (d : EventDescription) (alloc : AudioAllocator) : EventOutcome :=
  if e.m_se.isNone || d.samples.isEmpty || decide (d.volume < epsilon) then
    ⟨e, d.m_index, alloc, []⟩
  else
    (List.range e.m_layerCount).foldl
      (fun s i => SoundEvent.playLayer
        (fun l se al => l.play2d epsilon (bes i) (jitters i) se al) d s i)
      ⟨e, d.m_index, alloc, []⟩

/-- The method `SoundEvent::play3d`; `dist0` is the distance of `m_pos` to the listener. -/
def SoundEvent.play3d (epsilon : ℚ) (bes : Nat → Backend) (jitters : Nat → ℚ) (e : SoundEvent)
    (d : EventDescription) (alloc : AudioAllocator) (dist0 : ℚ) : EventOutcome :=
  if e.m_se.isNone || d.samples.isEmpty || decide (d.volume < epsilon) then
    ⟨e, d.m_index, alloc, []⟩
  else
    (List.range e.m_layerCount).foldl
      (fun s i => SoundEvent.playLayer
        (fun l se al => l.play3d epsilon (bes i) (jitters i) se al dist0) d s i)
      ⟨e, d.m_index, alloc, []⟩

/-- The method `SoundEvent::stop`: the layers below `m_layerCount` are stopped. -/
def SoundEvent.stop (e : SoundEvent) : SoundEvent × List BackendCall :=
  (List.range e.m_layerCount).foldl
    (fun s i =>
      match s.1.m_layers[i]? with
      | none => s
      | some l => ({ s.1 with m_layers := s.1.m_layers.set i l.stop.1 }, s.2 ++ l.stop.2))
    (e, [])

/-- The method `SoundEvent::isPlaying`: over all layers of the array. -/
def SoundEvent.isPlaying (be : Backend) (e : SoundEvent) : Bool :=
  e.m_layers.any fun l => l.isPlaying be

/-- Invariant of the pruning loop of `getStreamSource`: the voices before `i` play and
have at least the volume `minVol`; `minVolIdx`, once set, is the first index before `i`
whose voice has the volume `minVol`, which is below 1. -/
structure StreamInv (be : Backend) (s : StreamLoop) : Prop where
  played : ∀ v ∈ s.srcs.take s.i, be.isPlaying v = true ∧ s.minVol ≤ be.getVolume v
  vol_le : s.minVol ≤ 1
  unset : s.minVolIdx < 0 → s.minVolIdx = -1 ∧ s.minVol = 1
  found : 0 ≤ s.minVolIdx → ∃ v, s.srcs[s.minVolIdx.toNat]? = some v ∧
    s.minVolIdx.toNat < s.i ∧ be.getVolume v = s.minVol ∧ s.minVol < 1
  first : ∀ (j : Nat) (w : Voice), (j : Int) < s.minVolIdx → s.srcs[j]? = some w →
    s.minVol < be.getVolume w

/-- The pruning loop of `getStreamSource` run on the streaming voices `srcs`. -/
def pruneStreams (be : Backend) (srcs : List Voice) : StreamLoop :=
  streamLoop be srcs.length ⟨0, srcs, 1, -1, []⟩

/-- The lexicographic order on `(priority, gain)`: strictly below. -/
def lexLt (a b : Int × ℚ) : Bool :=
  decide (a.1 < b.1) || (decide (a.1 = b.1) && decide (a.2 < b.2))

/-- The key `(priority, recorded gain)` of a slot. -/
def slotKey (sd : SourceData) : Int × ℚ := (sd.priority, sd.gain)

/-- The simplified rule of the specification: take the first slot that is minimal under
the lexicographic order on `(priority, gain)`; it is selected for eviction if and only if
it is strictly below the request `(priority, newGain)` in that order. -/
def selectSimplified (srcs : List SourceData) (newGain : ℚ) (priority : Int) : Option Nat :=
  match srcs.findIdx? (fun e => srcs.all fun x => !lexLt (slotKey x) (slotKey e)) with
  | none => none
  | some i =>
    match srcs[i]? with
    | none => none
    | some e => if lexLt (slotKey e) (priority, newGain) then some i else none

/-! ## Invariants -/

/-- Invariant of the eviction scan after the slots `pre` have been visited, for a
request `(newGain, priority)`. -/
structure ScanInv (newGain : ℚ) (priority : Int) (pre : List SourceData) (s : Scan) : Prop where
  idx : s.i = pre.length
  pri_le : s.minPri ≤ priority
  pri_min : ∀ sd ∈ pre, s.minPri ≤ sd.priority
  vol_min : ∀ sd ∈ pre, sd.priority = s.minPri → s.minVol ≤ sd.gain
  vol_le : s.minPri = priority → s.minVol ≤ newGain
  unset : s.minIdx < 0 → s.minIdx = -1 ∧ s.minPri = priority ∧ s.minVol = newGain
  found : 0 ≤ s.minIdx → ∃ e, pre[s.minIdx.toNat]? = some e ∧ e.priority = s.minPri ∧
    e.gain = s.minVol ∧ (e.priority < priority ∨ e.gain < newGain)
  first : ∀ (j : Nat) (e : SourceData), (j : Int) < s.minIdx → pre[j]? = some e →
    ¬ (e.priority = s.minPri ∧ e.gain = s.minVol)

/-- The capacity invariant of the two voice collections. -/
def WithinCapacity (a : AudioAllocator) : Prop :=
  a.m_sources.length ≤ kSoundSources ∧ a.m_streamSources.length ≤ kStreamSources

/-- The identifier `id` is cached with the handle `h` in an initialised allocator. -/
def Cached (a : AudioAllocator) (id : lstring) (h : Buffer) : Prop :=
  a.m_mgr.isSome = true ∧ bufLookup a.m_buffers id = some (some h)

/-- No handle is cached for the identifier `id` (no entry, or a null entry). -/
def NotCached (a : AudioAllocator) (id : lstring) : Prop :=
  ∀ h, bufLookup a.m_buffers id ≠ some (some h)

/-! ## Concrete inputs -/

/-- A backend with a manager, where every creation succeeds and every voice plays. -/
def beOk : Backend :=
  ⟨some 1, some 100, fun _ => some 200, fun _ => some 300, fun _ => true, fun _ => 1, fun _ => 1⟩

/-- An initialised allocator holding 30 static slots of priority 0 and gain 1/2. -/
def full30 : AudioAllocator :=
  ⟨some 1, (List.range 30).map fun k => ⟨k, 0, 1 / 2⟩, [], [], some .manager⟩

/-- An initialised allocator holding 30 static slots of priority 1 and gain 1/2. -/
def tied30 : AudioAllocator :=
  ⟨some 1, (List.range 30).map fun k => ⟨k, 1, 1 / 2⟩, [], [], some .manager⟩

/-- An initialised allocator holding nothing. -/
def emptyPool : AudioAllocator := ⟨some 1, [], [], [], some .manager⟩

/-- A backend with a manager whose buffer loads all fail. -/
def beNoLoad : Backend := { beOk with createBuffer := fun _ => none }

/-- A backend that cannot create a manager. -/
def beNoMgr : Backend := { beOk with createAudioManager := none }

/-- Backend `beOk` creating the static voice `v`. -/
def beVoice (v : Voice) : Backend := { beOk with createStatic := some v }

/-- A round-robin description with three samples in layer 0 and the cursor at 0. -/
def rr3 : EventDescription :=
  { samples := [["a", "b", "c"]], volume := 1, pitch := 1, pitchRandomize := 0,
    flags := ROUND_ROBIN, rolloff := 1, minDist := 1, maxDist := 9999999999,
    priority := 0, m_index := 0 }

/-- A description without flags with three samples in layer 0 and the cursor at 1. -/
def rnd3 : EventDescription := { rr3 with flags := 0, m_index := 1 }

/-- A description with the single layer ["a"], no flags, cursor 0. -/
def single1 : EventDescription := { rr3 with samples := [["a"]], flags := 0 }

/-- A layer bound to layer 0 of the description at address 1, holding no voice. -/
def layer0 : SoundLayer := SoundLayer.bound (some 1) 0

/-- A layer holding the voice 7 with the saved offset 5. -/
def playing7 : SoundLayer :=
  { SoundLayer.bound (some 1) 0 with m_source := some 7, m_offset := 5, m_allocator := true }

/-- A description with three layers of one sample each, no flags, cursor 0. -/
def layered3 : EventDescription := { rr3 with samples := [["a"], ["b"], ["c"]], flags := 0 }

/-- The event after `setDescription` with `layered3` (at address 1) and `play2d` on the
empty pool, where the backend creates the voice `100 + i` for layer `i`. -/
def played3 : EventOutcome :=
  (SoundEvent.new.setDescription (some 1) layered3).play2d (1 / 10000)
    (fun i => beVoice (100 + i)) (fun _ => 0) layered3 emptyPool

/-- The event `played3` after a further `setDescription` with the one-layer description
`single1` (at address 2). -/
def shrunkEvent : SoundEvent := played3.event.setDescription (some 2) single1

/-- A backend with a manager in which no voice plays. -/
def beSilent : Backend := { beOk with isPlaying := fun _ => false }

/-- An initialised allocator holding the streaming voice 5. -/
def oneStream : AudioAllocator := ⟨some 1, [], [5], [], some .manager⟩

/-- An initialised allocator holding the streaming voices 5 and 6. -/
def twoStreams : AudioAllocator := ⟨some 1, [], [5, 6], [], some .manager⟩

/-- A backend with a manager in which every voice plays, voice 5 has the volume 1/2 and
the others 4/5, and the streaming voice 200 is opened. -/
def beQuiet5 : Backend :=
  { beOk with getVolume := fun v => if v = 5 then 1 / 2 else 4 / 5 }

/-- A description with the single layer ["a", "b"], no flags, and the cursor at 7. -/
def pair7 : EventDescription := { rr3 with samples := [["a", "b"]], flags := 0, m_index := 7 }

/-- The description `pair7` with the flag STREAM. -/
def pair7Stream : EventDescription := { pair7 with flags := STREAM }

/-- An initialised allocator holding the single static slot of voice 0. -/
def oneSlot : AudioAllocator := ⟨some 1, [⟨0, 0, 1 / 2⟩], [], [], some .manager⟩

/-! ## Lemmas on `vec_pop` -/

theorem set_perm_cons_eraseIdx {α : Type} (l : List α) (i : Nat) (x : α) (h : i < l.length) :
    (l.set i x).Perm (x :: l.eraseIdx i) := by
  induction l generalizing i with
  | nil => simp at h
  | cons y ys ih =>
    cases i with
    | zero => simp
    | succ k =>
      have hk : k < ys.length := by simpa using h
      simp only [List.set_cons_succ, List.eraseIdx_cons_succ]
      exact ((ih k hk).cons y).trans (List.Perm.swap x y _)

theorem vec_pop_concat {α : Type} (l : List α) (x : α) (i : Nat) (h : i < l.length) :
    vec_pop (l ++ [x]) i = l.set i x := by
  simp [vec_pop, List.set_append, h, Nat.lt_succ_of_lt h]

theorem vec_pop_concat_last {α : Type} (l : List α) (x : α) :
    vec_pop (l ++ [x]) l.length = l := by
  simp [vec_pop, List.set_append]

theorem vec_pop_perm {α : Type} (v : List α) (i : Nat) (h : i < v.length) :
    (vec_pop v i).Perm (v.eraseIdx i) := by
  rcases List.eq_nil_or_concat v with rfl | ⟨l, x, rfl⟩
  · simp at h
  · rw [List.concat_eq_append] at h ⊢
    have hi : i ≤ l.length := by simpa [Nat.lt_succ_iff] using h
    rcases Nat.lt_or_eq_of_le hi with hlt | rfl
    · rw [vec_pop_concat l x i hlt, List.eraseIdx_append_of_lt_length hlt]
      exact (set_perm_cons_eraseIdx l i x hlt).trans (List.perm_append_singleton x _).symm
    · rw [vec_pop_concat_last, List.eraseIdx_append_of_length_le (le_refl _)]
      simp

theorem vec_pop_length {α : Type} (v : List α) (i : Nat) (h : i < v.length) :
    (vec_pop v i).length = v.length - 1 := by
  rw [(vec_pop_perm v i h).length_eq, List.length_eraseIdx, if_pos h]

theorem vec_pop_length_le {α : Type} (v : List α) (i : Nat) :
    (vec_pop v i).length ≤ v.length := by
  by_cases h : i < v.length
  · rw [vec_pop_length v i h]; omega
  · unfold vec_pop
    cases v.getLast? <;> simp [h]

/-! ## The eviction scan of `getSource` -/

theorem scanInv_init (newGain : ℚ) (priority : Int) :
    ScanInv newGain priority [] ⟨newGain, -1, priority, 0⟩ where
  idx := by simp
  pri_le := le_refl _
  pri_min := by simp
  vol_min := by simp
  vol_le := fun _ => le_refl _
  unset := fun _ => ⟨rfl, rfl, rfl⟩
  found := by
    intro h
    have : (0 : Int) ≤ -1 := h
    omega
  first := by simp

theorem scanInv_take (newGain : ℚ) (priority : Int) (pre : List SourceData) (s : Scan)
    (sd : SourceData) (inv : ScanInv newGain priority pre s)
    (hpri : sd.priority ≤ s.minPri)
    (hold : ∀ e ∈ pre, e.priority = sd.priority → sd.gain < e.gain)
    (helig : sd.priority < priority ∨ sd.gain < newGain)
    (hvol : sd.priority = priority → sd.gain ≤ newGain) :
    ScanInv newGain priority (pre ++ [sd]) ⟨sd.gain, s.i, sd.priority, s.i + 1⟩ where
  idx := by simp [inv.idx]
  pri_le := le_trans hpri inv.pri_le
  pri_min := by
    intro e he
    rcases List.mem_append.mp he with h | h
    · exact le_trans hpri (inv.pri_min e h)
    · simp at h; subst h; exact le_refl _
  vol_min := by
    intro e he hp
    rcases List.mem_append.mp he with h | h
    · exact le_of_lt (hold e h hp)
    · simp at h; subst h; exact le_refl _
  vol_le := hvol
  unset := by
    intro h
    have : s.i < 0 := h
    rw [inv.idx] at this
    omega
  found := by
    intro _
    refine ⟨sd, ?_, rfl, rfl, helig⟩
    show (pre ++ [sd])[s.i.toNat]? = some sd
    rw [inv.idx]
    simp
  first := by
    intro j e hj hje
    have hj2 : (j : Int) < s.i := hj
    rw [inv.idx] at hj2
    have hj3 : j < pre.length := by omega
    rw [List.getElem?_append_left hj3] at hje
    have hmem : e ∈ pre := List.getElem?_mem hje
    rintro ⟨hp, hg⟩
    have := hold e hmem hp
    exact absurd hg (ne_of_gt this)

theorem scanInv_skip (newGain : ℚ) (priority : Int) (pre : List SourceData) (s : Scan)
    (sd : SourceData) (inv : ScanInv newGain priority pre s)
    (hpri : s.minPri ≤ sd.priority)
    (hvol : sd.priority = s.minPri → s.minVol ≤ sd.gain) :
    ScanInv newGain priority (pre ++ [sd]) { s with i := s.i + 1 } where
  idx := by simp [inv.idx]
  pri_le := inv.pri_le
  pri_min := by
    intro e he
    rcases List.mem_append.mp he with h | h
    · exact inv.pri_min e h
    · simp at h; subst h; exact hpri
  vol_min := by
    intro e he hp
    rcases List.mem_append.mp he with h | h
    · exact inv.vol_min e h hp
    · simp at h; subst h; exact hvol hp
  vol_le := inv.vol_le
  unset := inv.unset
  found := by
    intro h
    obtain ⟨e, he, h1, h2, h3⟩ := inv.found h
    refine ⟨e, ?_, h1, h2, h3⟩
    have hlt : s.minIdx.toNat < pre.length := by
      by_contra hc
      rw [List.getElem?_eq_none (Nat.le_of_not_lt hc)] at he
      exact absurd he (by simp)
    show (pre ++ [sd])[s.minIdx.toNat]? = some e
    rw [List.getElem?_append_left hlt]
    exact he
  first := by
    intro j e hj hje
    have hj1 : (j : Int) < s.minIdx := hj
    have h0 : 0 ≤ s.minIdx := by omega
    obtain ⟨e0, he0, _⟩ := inv.found h0
    have hlt : s.minIdx.toNat < pre.length := by
      by_contra hc
      rw [List.getElem?_eq_none (Nat.le_of_not_lt hc)] at he0
      exact absurd he0 (by simp)
    have hj3 : j < pre.length := by omega
    rw [List.getElem?_append_left hj3] at hje
    exact inv.first j e hj1 hje

theorem scanInv_step (newGain : ℚ) (priority : Int) (pre : List SourceData) (s : Scan)
    (sd : SourceData) (inv : ScanInv newGain priority pre s) :
    ScanInv newGain priority (pre ++ [sd]) (scanStep s sd) := by
  unfold scanStep
  by_cases h1 : sd.priority < s.minPri
  · rw [if_pos h1]
    refine scanInv_take newGain priority pre s sd inv (le_of_lt h1) ?_ ?_ ?_
    · intro e he hp
      have := inv.pri_min e he
      omega
    · exact Or.inl (lt_of_lt_of_le h1 inv.pri_le)
    · intro hp
      have := inv.pri_le
      omega
  · rw [if_neg h1]
    by_cases h2 : sd.priority = s.minPri
    · rw [if_pos h2]
      by_cases h3 : sd.gain < s.minVol
      · rw [if_pos h3]
        refine scanInv_take newGain priority pre s sd inv (le_of_eq h2) ?_ ?_ ?_
        · intro e he hp
          exact lt_of_lt_of_le h3 (inv.vol_min e he (hp.trans h2))
        · rcases lt_or_eq_of_le inv.pri_le with hlt | heq
          · exact Or.inl (by omega)
          · exact Or.inr (lt_of_lt_of_le h3 (inv.vol_le heq))
        · intro hp
          exact le_of_lt (lt_of_lt_of_le h3 (inv.vol_le (h2.symm.trans hp)))
      · rw [if_neg h3]
        exact scanInv_skip newGain priority pre s sd inv (le_of_eq h2.symm)
          (fun _ => le_of_not_lt h3)
    · rw [if_neg h2]
      refine scanInv_skip newGain priority pre s sd inv (le_of_not_lt h1) ?_
      intro hp
      exact absurd hp h2

theorem scanInv_foldl (newGain : ℚ) (priority : Int) (suf pre : List SourceData) (s : Scan)
    (inv : ScanInv newGain priority pre s) :
    ScanInv newGain priority (pre ++ suf) (suf.foldl scanStep s) := by
  induction suf generalizing pre s with
  | nil => simpa using inv
  | cons sd rest ih =>
    have h := ih (pre ++ [sd]) (scanStep s sd) (scanInv_step newGain priority pre s sd inv)
    simpa using h

theorem scanInv_scan (srcs : List SourceData) (newGain : ℚ) (priority : Int) :
    ScanInv newGain priority srcs (scan srcs newGain priority) := by
  have h := scanInv_foldl newGain priority srcs [] _ (scanInv_init newGain priority)
  simpa [scan] using h

/-! ## Unfolding `init` and `getSource` -/

theorem init_sources (be : Backend) (a : AudioAllocator) :
    (init be a).st.m_sources = a.m_sources := by
  unfold init
  split
  · rfl
  · split <;> rfl

theorem init_streamSources (be : Backend) (a : AudioAllocator) :
    (init be a).st.m_streamSources = a.m_streamSources := by
  unfold init
  split
  · rfl
  · split <;> rfl

theorem init_buffers (be : Backend) (a : AudioAllocator) :
    (init be a).st.m_buffers = a.m_buffers := by
  unfold init
  split
  · rfl
  · split <;> rfl

theorem init_of_mgr (be : Backend) (a : AudioAllocator) (h : a.m_mgr.isSome = true) :
    init be a = ⟨true, a, []⟩ := by
  unfold init
  rw [if_pos h]

theorem init_mgr_of_ret (be : Backend) (a : AudioAllocator) (h : (init be a).ret = true) :
    (init be a).st.m_mgr.isSome = true := by
  unfold init at h ⊢
  split
  · assumption
  · split
    · rename_i h1 _ h2
      simp [h1, h2] at h
    · rfl

theorem createSlot_sources (be : Backend) (a : AudioAllocator) (g : ℚ) (p : Int)
    (calls : List BackendCall) :
    (createSlot be a g p calls).st.m_sources
      = a.m_sources ++ (be.createStatic.map fun v => (⟨v, p, g⟩ : SourceData)).toList := by
  unfold createSlot
  cases be.createStatic <;> simp

theorem createSlot_ret (be : Backend) (a : AudioAllocator) (g : ℚ) (p : Int)
    (calls : List BackendCall) :
    (createSlot be a g p calls).ret = be.createStatic := by
  unfold createSlot
  cases be.createStatic <;> rfl

theorem createSlot_calls (be : Backend) (a : AudioAllocator) (g : ℚ) (p : Int)
    (calls : List BackendCall) :
    (createSlot be a g p calls).calls = calls ++ [.createStatic] := by
  unfold createSlot
  cases be.createStatic <;> rfl

/-- At capacity, with nothing selected by the scan, `getSource` gives up. -/
theorem getSourceCap_full_unset (cap : Nat) (be : Backend) (a : AudioAllocator) (g : ℚ)
    (p : Int) (hg : ¬ g < 1 / 1000) (hinit : (init be a).ret = true)
    (hcap : cap ≤ a.m_sources.length) (hsc : (scan a.m_sources g p).minIdx < 0) :
    getSourceCap cap be a g p = ⟨none, (init be a).st, (init be a).calls⟩ := by
  unfold getSourceCap
  simp only [if_neg hg, hinit, init_sources, hcap, hsc]
  simp

/-- At capacity, with a slot selected by the scan, `getSource` evicts that slot. -/
theorem getSourceCap_full_found (cap : Nat) (be : Backend) (a : AudioAllocator) (g : ℚ)
    (p : Int) (e : SourceData) (hg : ¬ g < 1 / 1000) (hinit : (init be a).ret = true)
    (hcap : cap ≤ a.m_sources.length) (hsc : 0 ≤ (scan a.m_sources g p).minIdx)
    (he : a.m_sources[(scan a.m_sources g p).minIdx.toNat]? = some e) :
    getSourceCap cap be a g p
      = createSlot be
          { (init be a).st with
            m_sources := vec_pop a.m_sources (scan a.m_sources g p).minIdx.toNat }
          g p ((init be a).calls ++ [.stop e.source, .drop e.source]) := by
  unfold getSourceCap
  simp only [if_neg hg, hinit, init_sources, hcap, not_lt.mpr hsc, he]
  simp

/-- Below capacity `getSource` only creates the new slot. -/
theorem getSourceCap_below (cap : Nat) (be : Backend) (a : AudioAllocator) (g : ℚ)
    (p : Int) (hg : ¬ g < 1 / 1000) (hinit : (init be a).ret = true)
    (hcap : a.m_sources.length < cap) :
    getSourceCap cap be a g p = createSlot be (init be a).st g p (init be a).calls := by
  unfold getSourceCap
  simp only [if_neg hg, hinit, init_sources, not_le.mpr hcap]
  simp

/-- When `init` fails `getSource` returns none and keeps the slots. -/
theorem getSourceCap_noinit (cap : Nat) (be : Backend) (a : AudioAllocator) (g : ℚ)
    (p : Int) (hinit : (init be a).ret = false) :
    (getSourceCap cap be a g p).ret = none ∧
      (getSourceCap cap be a g p).st.m_sources = a.m_sources := by
  unfold getSourceCap
  by_cases hg : g < 1 / 1000
  · rw [if_pos hg]
    exact ⟨rfl, rfl⟩
  · rw [if_neg hg]
    simp only [hinit]
    simp [init_sources]

/-! ## Claims on `getSource` -/

/-- C2: with exactly 30 slots held, an audible request whose priority is strictly above
the lowest held priority gets a voice (backend able to create one): one slot is evicted,
it has the lowest priority and, among the slots of that priority, the lowest recorded
gain; all other slots are kept as they are and the requester's slot is added. -/
theorem getSource_evicts_minimum (be : Backend) (a : AudioAllocator) (g : ℚ) (p : Int)
    (v : Voice) (hlen : a.m_sources.length = kSoundSources) (hg : 1 / 1000 ≤ g)
    (hpri : ∃ sd ∈ a.m_sources, sd.priority < p) (hinit : (init be a).ret = true)
    (hv : be.createStatic = some v) :
    (getSource be a g p).ret = some v ∧
    ∃ i e, a.m_sources[i]? = some e ∧
      (∀ sd ∈ a.m_sources, e.priority ≤ sd.priority) ∧
      (∀ sd ∈ a.m_sources, sd.priority = e.priority → e.gain ≤ sd.gain) ∧
      (getSource be a g p).st.m_sources = vec_pop a.m_sources i ++ [⟨v, p, g⟩] ∧
      ((getSource be a g p).st.m_sources).Perm (a.m_sources.eraseIdx i ++ [⟨v, p, g⟩]) ∧
      (getSource be a g p).calls
        = (init be a).calls ++ [.stop e.source, .drop e.source, .createStatic] := by
  have inv := scanInv_scan a.m_sources g p
  obtain ⟨sd0, hsd0, hlt0⟩ := hpri
  have hfound : 0 ≤ (scan a.m_sources g p).minIdx := by
    by_contra hneg
    obtain ⟨_, h2, _⟩ := inv.unset (not_le.mp hneg)
    have := inv.pri_min sd0 hsd0
    omega
  obtain ⟨e, he, hep, heg, _⟩ := inv.found hfound
  have hidx : (scan a.m_sources g p).minIdx.toNat < a.m_sources.length := by
    by_contra hc
    rw [List.getElem?_eq_none (Nat.le_of_not_lt hc)] at he
    exact absurd he (by simp)
  have hrun := getSourceCap_full_found kSoundSources be a g p e (not_lt.mpr hg) hinit
    (le_of_eq hlen.symm) hfound he
  have hsrc : (getSource be a g p).st.m_sources
      = vec_pop a.m_sources (scan a.m_sources g p).minIdx.toNat ++ [⟨v, p, g⟩] := by
    unfold getSource
    rw [hrun, createSlot_sources, hv]
    rfl
  refine ⟨?_, (scan a.m_sources g p).minIdx.toNat, e, he, ?_, ?_, hsrc, ?_, ?_⟩
  · unfold getSource
    rw [hrun, createSlot_ret, hv]
  · intro sd hsd
    rw [hep]
    exact inv.pri_min sd hsd
  · intro sd hsd hp
    rw [heg]
    exact inv.vol_min sd hsd (hp.trans hep)
  · rw [hsrc]
    exact (vec_pop_perm a.m_sources _ hidx).append_right _
  · unfold getSource
    rw [hrun, createSlot_calls]
    simp

/-- C2 at a concrete input: 30 slots of priority 0, request of priority 1 and gain 1/4. -/
theorem getSource_evicts_minimum_witness :
    full30.m_sources.length = kSoundSources ∧ (1 / 1000 : ℚ) ≤ 1 / 4 ∧
    (∃ sd ∈ full30.m_sources, sd.priority < 1) ∧
    (getSource beOk full30 (1 / 4) 1).ret = some 100 ∧
    ∃ i e, full30.m_sources[i]? = some e ∧
      (∀ sd ∈ full30.m_sources, e.priority ≤ sd.priority) ∧
      (∀ sd ∈ full30.m_sources, sd.priority = e.priority → e.gain ≤ sd.gain) ∧
      (getSource beOk full30 (1 / 4) 1).st.m_sources
        = vec_pop full30.m_sources i ++ [⟨100, 1, 1 / 4⟩] ∧
      ((getSource beOk full30 (1 / 4) 1).st.m_sources).Perm
        (full30.m_sources.eraseIdx i ++ [⟨100, 1, 1 / 4⟩]) ∧
      (getSource beOk full30 (1 / 4) 1).calls
        = (init beOk full30).calls ++ [.stop e.source, .drop e.source, .createStatic] :=
  have h1 : full30.m_sources.length = kSoundSources := by simp [full30, kSoundSources, kStreamSources]
  have h2 : (1 / 1000 : ℚ) ≤ 1 / 4 := by norm_num
  have h3 : ∃ sd ∈ full30.m_sources, sd.priority < 1 :=
    ⟨⟨0, 0, 1 / 2⟩, List.mem_map.mpr ⟨0, by simp, rfl⟩, by decide⟩
  ⟨h1, h2, h3, getSource_evicts_minimum beOk full30 (1 / 4) 1 100 h1 h2 h3 rfl rfl⟩

/-- C3: with exactly 30 slots held and an audible request whose priority equals the
lowest held priority, `getSource` returns a voice exactly when the requested gain is
strictly above the lowest recorded gain `m` among the slots of that priority; when it
returns none the slots are unchanged and no voice is stopped or dropped. -/
theorem getSource_tie_iff (be : Backend) (a : AudioAllocator) (g : ℚ) (p : Int) (v : Voice)
    (m : ℚ) (hlen : a.m_sources.length = kSoundSources) (hg : 1 / 1000 ≤ g)
    (hmin : ∀ sd ∈ a.m_sources, p ≤ sd.priority)
    (hm : ∃ sd ∈ a.m_sources, sd.priority = p ∧ sd.gain = m)
    (hmmin : ∀ sd ∈ a.m_sources, sd.priority = p → m ≤ sd.gain)
    (hinit : (init be a).ret = true) (hv : be.createStatic = some v) :
    ((getSource be a g p).ret.isSome = true ↔ m < g) ∧
    ((getSource be a g p).ret = none →
      (getSource be a g p).st.m_sources = a.m_sources ∧
      (getSource be a g p).calls = (init be a).calls) := by
  have inv := scanInv_scan a.m_sources g p
  obtain ⟨sm, hsm, hsmp, hsmg⟩ := hm
  by_cases hneg : (scan a.m_sources g p).minIdx < 0
  · have hrun := getSourceCap_full_unset kSoundSources be a g p (not_lt.mpr hg) hinit
      (le_of_eq hlen.symm) hneg
    obtain ⟨_, h2, h3⟩ := inv.unset hneg
    have hle : g ≤ m := by
      have := inv.vol_min sm hsm (hsmp.trans h2.symm)
      rw [h3, hsmg] at this
      exact this
    unfold getSource
    rw [hrun]
    refine ⟨?_, fun _ => ⟨init_sources be a, rfl⟩⟩
    constructor
    · intro h
      simp at h
    · intro h
      exact absurd h (not_lt.mpr hle)
  · have hfound : 0 ≤ (scan a.m_sources g p).minIdx := not_lt.mp hneg
    obtain ⟨e, he, hep, heg, helig⟩ := inv.found hfound
    have hrun := getSourceCap_full_found kSoundSources be a g p e (not_lt.mpr hg) hinit
      (le_of_eq hlen.symm) hfound he
    have hemem : e ∈ a.m_sources := List.getElem?_mem he
    have hepp : e.priority = p := le_antisymm (hep ▸ inv.pri_le) (hmin e hemem)
    have hmg : m < g := by
      rcases helig with h | h
      · omega
      · exact lt_of_le_of_lt (hmmin e hemem hepp) h
    have hret : (getSource be a g p).ret = some v := by
      unfold getSource
      rw [hrun, createSlot_ret, hv]
    refine ⟨⟨fun _ => hmg, fun _ => by rw [hret]; rfl⟩, ?_⟩
    intro h
    rw [hret] at h
    exact absurd h (by simp)

/-- C3 at a concrete input: 30 slots of priority 1 and gain 1/2, request of priority 1
and gain 3/4. -/
theorem getSource_tie_iff_witness :
    ((getSource beOk tied30 (3 / 4) 1).ret.isSome = true ↔ (1 / 2 : ℚ) < 3 / 4) ∧
    ((getSource beOk tied30 (3 / 4) 1).ret = none →
      (getSource beOk tied30 (3 / 4) 1).st.m_sources = tied30.m_sources ∧
      (getSource beOk tied30 (3 / 4) 1).calls = (init beOk tied30).calls) :=
  getSource_tie_iff beOk tied30 (3 / 4) 1 100 (1 / 2)
    (by simp [tied30, kSoundSources, kStreamSources]) (by norm_num)
    (by
      intro sd hsd
      obtain ⟨k, _, rfl⟩ := List.mem_map.mp hsd
      exact le_refl _)
    ⟨⟨0, 1, 1 / 2⟩, List.mem_map.mpr ⟨0, by simp, rfl⟩, rfl, rfl⟩
    (by
      intro sd hsd _
      obtain ⟨k, _, rfl⟩ := List.mem_map.mp hsd
      exact le_refl _)
    rfl rfl

/-- C4: at capacity, either `getSource` returns none and keeps the slots, or it evicts
exactly one slot, whose priority is at most the requested priority and which has a lower
priority or a lower recorded gain than the request; and when no held slot meets that
condition, `getSource` returns none and keeps the slots. -/
theorem getSource_eviction_eligible (be : Backend) (a : AudioAllocator) (g : ℚ) (p : Int)
    (hcap : kSoundSources ≤ a.m_sources.length) :
    (((getSource be a g p).ret = none ∧ (getSource be a g p).st.m_sources = a.m_sources) ∨
      ∃ i e, a.m_sources[i]? = some e ∧
        e.priority ≤ p ∧ (e.priority < p ∨ e.gain < g) ∧
        (getSource be a g p).calls
          = (init be a).calls ++ [.stop e.source, .drop e.source, .createStatic] ∧
        (getSource be a g p).st.m_sources
          = vec_pop a.m_sources i
            ++ (be.createStatic.map fun v => (⟨v, p, g⟩ : SourceData)).toList) ∧
    ((∀ sd ∈ a.m_sources, ¬ (sd.priority ≤ p ∧ (sd.priority < p ∨ sd.gain < g))) →
      (getSource be a g p).ret = none ∧ (getSource be a g p).st.m_sources = a.m_sources) := by
  have inv := scanInv_scan a.m_sources g p
  by_cases hg : g < 1 / 1000
  · have h : (getSource be a g p).ret = none ∧
        (getSource be a g p).st.m_sources = a.m_sources := by
      unfold getSource getSourceCap
      rw [if_pos hg]
      exact ⟨rfl, rfl⟩
    exact ⟨Or.inl h, fun _ => h⟩
  cases hinit : (init be a).ret with
  | false =>
    have h := getSourceCap_noinit kSoundSources be a g p hinit
    exact ⟨Or.inl h, fun _ => h⟩
  | true =>
    by_cases hneg : (scan a.m_sources g p).minIdx < 0
    · have hrun := getSourceCap_full_unset kSoundSources be a g p hg hinit hcap hneg
      have h : (getSource be a g p).ret = none ∧
          (getSource be a g p).st.m_sources = a.m_sources := by
        unfold getSource
        rw [hrun]
        exact ⟨rfl, init_sources be a⟩
      exact ⟨Or.inl h, fun _ => h⟩
    · have hfound : 0 ≤ (scan a.m_sources g p).minIdx := not_lt.mp hneg
      obtain ⟨e, he, hep, _, helig⟩ := inv.found hfound
      have hrun := getSourceCap_full_found kSoundSources be a g p e hg hinit hcap hfound he
      have hle : e.priority ≤ p := hep ▸ inv.pri_le
      constructor
      · refine Or.inr ⟨_, e, he, hle, helig, ?_, ?_⟩
        · unfold getSource
          rw [hrun, createSlot_calls]
          simp
        · unfold getSource
          rw [hrun, createSlot_sources]
      · intro hnone
        exact absurd ⟨hle, helig⟩ (hnone e (List.getElem?_mem he))

/-- C4 at a concrete input: 30 slots of priority 1 and gain 1/2, request of priority 1
and gain 1/4, which no slot is eligible for. -/
theorem getSource_eviction_eligible_witness :
    kSoundSources ≤ tied30.m_sources.length ∧
    (getSource beOk tied30 (1 / 4) 1).ret = none ∧
    (getSource beOk tied30 (1 / 4) 1).st.m_sources = tied30.m_sources :=
  have h1 : kSoundSources ≤ tied30.m_sources.length := by
    simp [tied30, kSoundSources, kStreamSources]
  ⟨h1, (getSource_eviction_eligible beOk tied30 (1 / 4) 1 h1).2 (by
    intro sd hsd
    obtain ⟨k, _, rfl⟩ := List.mem_map.mp hsd
    norm_num)⟩

/-- C6: a request below the audibility threshold returns none, leaves the allocator
(static slots, streaming slots, buffer cache, manager) as it is and calls nothing. -/
theorem getSource_inaudible (be : Backend) (a : AudioAllocator) (g : ℚ) (p : Int)
    (hg : g < 1 / 1000) :
    (getSource be a g p).ret = none ∧ (getSource be a g p).st = a ∧
      (getSource be a g p).calls = [] := by
  unfold getSource getSourceCap
  rw [if_pos hg]
  exact ⟨rfl, rfl, rfl⟩

/-- C6 at a concrete input: gain 1/2000 on a full pool. -/
theorem getSource_inaudible_witness :
    (getSource beOk full30 (1 / 2000) 5).ret = none ∧
      (getSource beOk full30 (1 / 2000) 5).st = full30 ∧
      (getSource beOk full30 (1 / 2000) 5).calls = [] :=
  getSource_inaudible beOk full30 (1 / 2000) 5 (by norm_num)

/-- C5, as stated, fails: with capacity 2 and slots A (gain 1/2) and B (gain 4/5) of
priority 1, the request C of gain 3/10 and priority 1 gets no voice, and the slots are
not B and C afterwards. -/
theorem scenario_cap2_third_not_admitted :
    (getSourceCap 2 (beVoice 12)
      (getSourceCap 2 (beVoice 11)
        (getSourceCap 2 (beVoice 10) emptyPool (1 / 2) 1).st (4 / 5) 1).st (3 / 10) 1).ret = none ∧
    ¬ ((getSourceCap 2 (beVoice 12)
      (getSourceCap 2 (beVoice 11)
        (getSourceCap 2 (beVoice 10) emptyPool (1 / 2) 1).st (4 / 5) 1).st (3 / 10) 1).st.m_sources).Perm
        [⟨11, 1, 4 / 5⟩, ⟨12, 1, 3 / 10⟩] := by
  have h : (getSourceCap 2 (beVoice 12)
      (getSourceCap 2 (beVoice 11)
        (getSourceCap 2 (beVoice 10) emptyPool (1 / 2) 1).st (4 / 5) 1).st (3 / 10) 1)
      = ⟨none, ⟨some 1, [⟨10, 1, 1 / 2⟩, ⟨11, 1, 4 / 5⟩], [], [], some .manager⟩, []⟩ := by
    norm_num [getSourceCap, init, emptyPool, beVoice, beOk, createSlot, scan, scanStep]
  rw [h]
  refine ⟨rfl, ?_⟩
  intro hp
  have hmem : (⟨10, 1, 1 / 2⟩ : SourceData) ∈ [(⟨11, 1, 4 / 5⟩ : SourceData), ⟨12, 1, 3 / 10⟩] :=
    hp.subset (List.mem_cons_self _ _)
  simp at hmem

/-- C5 amended: with capacity 2 and an empty initialised pool, the requests A (gain 1/2)
and B (gain 4/5) of priority 1 succeed, giving the slots A and then A, B; the request C
(gain 3/10, priority 1) returns none, evicts nothing and leaves the slots A, B. -/
theorem scenario_cap2 (be1 be2 be3 : Backend) (a : AudioAllocator) (vA vB : Voice)
    (hmgr : a.m_mgr.isSome = true) (hempty : a.m_sources = [])
    (hA : be1.createStatic = some vA) (hB : be2.createStatic = some vB) :
    (getSourceCap 2 be1 a (1 / 2) 1).ret = some vA ∧
    (getSourceCap 2 be1 a (1 / 2) 1).st.m_sources = [⟨vA, 1, 1 / 2⟩] ∧
    (getSourceCap 2 be2 (getSourceCap 2 be1 a (1 / 2) 1).st (4 / 5) 1).ret = some vB ∧
    (getSourceCap 2 be2 (getSourceCap 2 be1 a (1 / 2) 1).st (4 / 5) 1).st.m_sources
      = [⟨vA, 1, 1 / 2⟩, ⟨vB, 1, 4 / 5⟩] ∧
    (getSourceCap 2 be3
      (getSourceCap 2 be2 (getSourceCap 2 be1 a (1 / 2) 1).st (4 / 5) 1).st (3 / 10) 1).ret
      = none ∧
    (getSourceCap 2 be3
      (getSourceCap 2 be2 (getSourceCap 2 be1 a (1 / 2) 1).st (4 / 5) 1).st (3 / 10) 1).st.m_sources
      = [⟨vA, 1, 1 / 2⟩, ⟨vB, 1, 4 / 5⟩] ∧
    (getSourceCap 2 be3
      (getSourceCap 2 be2 (getSourceCap 2 be1 a (1 / 2) 1).st (4 / 5) 1).st (3 / 10) 1).calls
      = [] := by
  have e1 : getSourceCap 2 be1 a (1 / 2) 1
      = ⟨some vA, { a with m_sources := [⟨vA, 1, 1 / 2⟩] }, [.createStatic]⟩ := by
    rw [getSourceCap_below 2 be1 a _ _ (by norm_num) (by rw [init_of_mgr be1 a hmgr])
      (by rw [hempty]; decide), init_of_mgr be1 a hmgr]
    simp [createSlot, hA, hempty]
  have i2 : init be2 { a with m_sources := [⟨vA, 1, 1 / 2⟩] }
      = ⟨true, { a with m_sources := [⟨vA, 1, 1 / 2⟩] }, []⟩ := init_of_mgr be2 _ hmgr
  have i3 : init be3 { a with m_sources := [⟨vA, 1, 1 / 2⟩, ⟨vB, 1, 4 / 5⟩] }
      = ⟨true, { a with m_sources := [⟨vA, 1, 1 / 2⟩, ⟨vB, 1, 4 / 5⟩] }, []⟩ :=
    init_of_mgr be3 _ hmgr
  have e2 : getSourceCap 2 be2 { a with m_sources := [⟨vA, 1, 1 / 2⟩] } (4 / 5) 1
      = ⟨some vB, { a with m_sources := [⟨vA, 1, 1 / 2⟩, ⟨vB, 1, 4 / 5⟩] }, [.createStatic]⟩ := by
    rw [getSourceCap_below 2 be2 { a with m_sources := [⟨vA, 1, 1 / 2⟩] } _ _ (by norm_num)
      (by rw [i2]) (by simp), i2]
    simp [createSlot, hB]
  have e3 : getSourceCap 2 be3 { a with m_sources := [⟨vA, 1, 1 / 2⟩, ⟨vB, 1, 4 / 5⟩] } (3 / 10) 1
      = ⟨none, { a with m_sources := [⟨vA, 1, 1 / 2⟩, ⟨vB, 1, 4 / 5⟩] }, []⟩ := by
    rw [getSourceCap_full_unset 2 be3 { a with m_sources := [⟨vA, 1, 1 / 2⟩, ⟨vB, 1, 4 / 5⟩] }
      _ _ (by norm_num) (by rw [i3]) (by simp) (by norm_num [scan, scanStep]), i3]
  rw [e1, e2, e3]
  exact ⟨rfl, rfl, rfl, rfl, rfl, rfl, rfl⟩

/-- C5 amended, at a concrete input. -/
theorem scenario_cap2_witness :
    (getSourceCap 2 (beVoice 12)
      (getSourceCap 2 (beVoice 11)
        (getSourceCap 2 (beVoice 10) emptyPool (1 / 2) 1).st (4 / 5) 1).st (3 / 10) 1).st.m_sources
      = [⟨10, 1, 1 / 2⟩, ⟨11, 1, 4 / 5⟩] :=
  (scenario_cap2 (beVoice 10) (beVoice 11) (beVoice 12) emptyPool 10 11 rfl rfl rfl rfl).2.2.2.2.2.1

/-! ## Claims on `calculateGain` and `advance` -/

theorem fmax_eq_max (a b : ℚ) : fmax a b = max a b := by
  unfold fmax
  split
  · rename_i h; exact (max_eq_right (le_of_lt h)).symm
  · rename_i h; exact (max_eq_left (not_lt.mp h)).symm

theorem fmin_eq_min (a b : ℚ) : fmin a b = min a b := by
  unfold fmin
  split
  · rename_i h; exact (min_eq_right (le_of_lt h)).symm
  · rename_i h; exact (min_eq_left (not_lt.mp h)).symm

/-- C9: `calculateGain` is the inverse-distance-clamped formula of the specification,
for every distance and parameters; with refDist 1, maxDist 10 and rolloff 1 it is 1 at
distance 1, 1/10 at distance 10 and 1/10 at distance 50. -/
theorem calculateGain_eq_spec :
    (∀ dist0 refDist maxDist rolloff : ℚ,
      calculateGain dist0 refDist maxDist rolloff
        = calculateGainSpec dist0 refDist maxDist rolloff) ∧
    (∀ dist0 refDist maxDist rolloff : ℚ,
      calculateGain dist0 refDist maxDist rolloff
        = refDist / (refDist + rolloff * (min (max dist0 refDist) maxDist - refDist))) ∧
    calculateGain 1 1 10 1 = 1 ∧ calculateGain 10 1 10 1 = 1 / 10 ∧
    calculateGain 50 1 10 1 = 1 / 10 := by
  have h : ∀ dist0 refDist maxDist rolloff : ℚ,
      calculateGain dist0 refDist maxDist rolloff
        = refDist / (refDist + rolloff * (min (max dist0 refDist) maxDist - refDist)) := by
    intro dist0 refDist maxDist rolloff
    unfold calculateGain
    simp only [fmax_eq_max, fmin_eq_min]
  refine ⟨fun d r m k => h d r m k, h, ?_, ?_, ?_⟩
  · rw [h]; norm_num
  · rw [h]; norm_num
  · rw [h]; norm_num

/-- C10 fails in the code: on the round-robin description `rr3` (three samples, cursor 0)
`advance(-1)` leaves the cursor at 0, because `0 + (-1)` wraps to `2^32 - 1`, a multiple
of 3, while the non-negative residue of `0 + (-1)` modulo 3 is 2. -/
theorem advance_round_robin_negative_delta :
    rr3.flags &&& ROUND_ROBIN ≠ 0 ∧
    advance rr3 (-1) [] = some 0 ∧
    ((rr3.m_index : Int) + (-1)) % 3 = 2 := by
  refine ⟨by decide, ?_, by decide⟩
  decide

/-! ## Loops: enough fuel, and sizes -/

theorem onUpdateLoop_length_le (be : Backend) (fuel : Nat) (s : UpdateLoop) :
    (onUpdateLoop be fuel s).srcs.length ≤ s.srcs.length := by
  induction fuel generalizing s with
  | zero => exact le_refl _
  | succ n ih =>
    unfold onUpdateLoop
    split
    · exact le_refl _
    · split
      · exact le_trans (ih _) (vec_pop_length_le _ _)
      · exact le_trans (ih _) (by simp)

/-- With the number of slots as fuel the loop of `onUpdate` runs to its end. -/
theorem onUpdateLoop_done (be : Backend) (fuel : Nat) (s : UpdateLoop)
    (h : s.srcs.length - s.i ≤ fuel) :
    (onUpdateLoop be fuel s).srcs.length ≤ (onUpdateLoop be fuel s).i := by
  induction fuel generalizing s with
  | zero =>
    unfold onUpdateLoop
    omega
  | succ n ih =>
    unfold onUpdateLoop
    split
    · rename_i hnone
      exact List.getElem?_eq_none_iff.mp hnone
    · rename_i sd hsome
      have hi : s.i < s.srcs.length := by
        by_contra hc
        rw [List.getElem?_eq_none (Nat.le_of_not_lt hc)] at hsome
        exact absurd hsome (by simp)
      split
      · apply ih
        simp only [vec_pop_length _ _ hi]
        omega
      · apply ih
        simp only [List.length_set]
        omega

theorem streamLoop_length_le (be : Backend) (fuel : Nat) (s : StreamLoop) :
    (streamLoop be fuel s).srcs.length ≤ s.srcs.length := by
  induction fuel generalizing s with
  | zero => exact le_refl _
  | succ n ih =>
    unfold streamLoop
    split
    · exact le_refl _
    · split
      · exact le_trans (ih _) (vec_pop_length_le _ _)
      · simp only
        split
        · exact ih _
        · exact ih _

/-- With the number of streaming voices as fuel the pruning loop runs to its end. -/
theorem streamLoop_done (be : Backend) (fuel : Nat) (s : StreamLoop)
    (h : s.srcs.length - s.i ≤ fuel) :
    (streamLoop be fuel s).srcs.length ≤ (streamLoop be fuel s).i := by
  induction fuel generalizing s with
  | zero =>
    unfold streamLoop
    omega
  | succ n ih =>
    unfold streamLoop
    split
    · rename_i hnone
      exact List.getElem?_eq_none_iff.mp hnone
    · rename_i v hsome
      have hi : s.i < s.srcs.length := by
        by_contra hc
        rw [List.getElem?_eq_none (Nat.le_of_not_lt hc)] at hsome
        exact absurd hsome (by simp)
      split
      · apply ih
        simp only [vec_pop_length _ _ hi]
        omega
      · simp only
        split
        · apply ih
          simp only
          omega
        · apply ih
          simp only
          omega

/-! ## The capacity invariant -/

theorem createSlot_streamSources (be : Backend) (a : AudioAllocator) (g : ℚ) (p : Int)
    (calls : List BackendCall) :
    (createSlot be a g p calls).st.m_streamSources = a.m_streamSources := by
  unfold createSlot
  cases be.createStatic <;> rfl

theorem createSlot_length_le (be : Backend) (a : AudioAllocator) (g : ℚ) (p : Int)
    (calls : List BackendCall) :
    (createSlot be a g p calls).st.m_sources.length ≤ a.m_sources.length + 1 := by
  rw [createSlot_sources]
  cases be.createStatic <;> simp

theorem getSourceCap_streamSources (cap : Nat) (be : Backend) (a : AudioAllocator) (g : ℚ)
    (p : Int) : (getSourceCap cap be a g p).st.m_streamSources = a.m_streamSources := by
  unfold getSourceCap
  split
  · rfl
  · simp only
    split
    · exact init_streamSources be a
    · split
      · split
        · exact init_streamSources be a
        · split
          · exact init_streamSources be a
          · rw [createSlot_streamSources]
            exact init_streamSources be a
      · rw [createSlot_streamSources]
        exact init_streamSources be a

theorem getSourceCap_length_le (cap : Nat) (be : Backend) (a : AudioAllocator) (g : ℚ)
    (p : Int) (h : a.m_sources.length ≤ cap) :
    (getSourceCap cap be a g p).st.m_sources.length ≤ cap := by
  unfold getSourceCap
  split
  · exact h
  · simp only
    split
    · rw [init_sources]; exact h
    · split
      · split
        · rw [init_sources]; exact h
        · split
          · rw [init_sources]; exact h
          · rename_i e he
            rw [init_sources] at he
            have hi : (scan (init be a).st.m_sources g p).minIdx.toNat < a.m_sources.length := by
              rw [init_sources]
              by_contra hc
              rw [List.getElem?_eq_none (Nat.le_of_not_lt hc)] at he
              exact absurd he (by simp)
            refine le_trans (createSlot_length_le _ _ _ _ _) ?_
            simp only [init_sources] at hi ⊢
            rw [vec_pop_length _ _ hi]
            omega
      · rename_i hlt
        rw [init_sources] at hlt
        refine le_trans (createSlot_length_le _ _ _ _ _) ?_
        rw [init_sources]
        omega

theorem createStream_sources (be : Backend) (a : AudioAllocator) (f : lstring)
    (calls : List BackendCall) :
    (createStream be a f calls).st.m_sources = a.m_sources := by
  unfold createStream
  cases be.create f <;> rfl

theorem createStream_length_le (be : Backend) (a : AudioAllocator) (f : lstring)
    (calls : List BackendCall) :
    (createStream be a f calls).st.m_streamSources.length ≤ a.m_streamSources.length + 1 := by
  unfold createStream
  cases be.create f <;> simp

theorem getStreamSource_sources (be : Backend) (a : AudioAllocator) (f : lstring) :
    (getStreamSource be a f).st.m_sources = a.m_sources := by
  unfold getStreamSource
  simp only
  split
  · exact init_sources be a
  · split
    · split
      · split
        · exact init_sources be a
        · split
          · exact init_sources be a
          · rw [createStream_sources]
            exact init_sources be a
      · rw [createStream_sources]
        exact init_sources be a
    · rw [createStream_sources]
      exact init_sources be a

theorem getStreamSource_length_le (be : Backend) (a : AudioAllocator) (f : lstring)
    (h : a.m_streamSources.length ≤ kStreamSources) :
    (getStreamSource be a f).st.m_streamSources.length ≤ kStreamSources := by
  have hloop := streamLoop_length_le be a.m_streamSources.length ⟨0, a.m_streamSources, 1, -1, []⟩
  simp only at hloop
  unfold getStreamSource
  simp only [init_streamSources]
  split
  · rw [init_streamSources]; exact h
  · split
    · split
      · split
        · exact le_trans hloop h
        · split
          · exact le_trans hloop h
          · rename_i v hv
            have hi : (streamLoop be a.m_streamSources.length
                ⟨0, a.m_streamSources, 1, -1, []⟩).minVolIdx.toNat
                < (streamLoop be a.m_streamSources.length
                  ⟨0, a.m_streamSources, 1, -1, []⟩).srcs.length := by
              by_contra hc
              rw [List.getElem?_eq_none (Nat.le_of_not_lt hc)] at hv
              exact absurd hv (by simp)
            refine le_trans (createStream_length_le _ _ _ _) ?_
            simp only
            rw [vec_pop_length _ _ hi]
            omega
      · rename_i hlt
        refine le_trans (createStream_length_le _ _ _ _) ?_
        simp only
        omega
    · rename_i hlt
      refine le_trans (createStream_length_le _ _ _ _) ?_
      rw [init_streamSources]
      omega

theorem step_withinCapacity (be : Backend) (a a1 : AudioAllocator) (c : Call)
    (h : WithinCapacity a) (hstep : step be a c = some a1) : WithinCapacity a1 := by
  cases c with
  | getSource g p =>
    simp only [step, Option.some.injEq] at hstep
    subst hstep
    exact ⟨getSourceCap_length_le _ be a g p h.1,
      by rw [getSource, getSourceCap_streamSources]; exact h.2⟩
  | getStreamSource f =>
    simp only [step, Option.some.injEq] at hstep
    subst hstep
    exact ⟨by rw [getStreamSource_sources]; exact h.1, getStreamSource_length_le be a f h.2⟩
  | onUpdate =>
    simp only [step, Option.some.injEq] at hstep
    subst hstep
    exact ⟨le_trans (onUpdateLoop_length_le be _ _) h.1, h.2⟩
  | releaseAll =>
    simp only [step, releaseAll] at hstep
    cases hm : a.m_mgr with
    | none => simp [hm] at hstep
    | some m =>
      simp [hm] at hstep
      subst hstep
      exact ⟨Nat.zero_le _, Nat.zero_le _⟩

theorem reach_withinCapacity (calls : List (Backend × Call)) (a s : AudioAllocator)
    (h : WithinCapacity a) (hs : s ∈ reach a calls) : WithinCapacity s := by
  induction calls generalizing a with
  | nil =>
    simp only [reach, List.mem_singleton] at hs
    subst hs
    exact h
  | cons bc rest ih =>
    obtain ⟨be, c⟩ := bc
    simp only [reach, List.mem_cons] at hs
    rcases hs with rfl | hs
    · exact h
    · cases hstep : step be a c with
      | none => simp [hstep] at hs
      | some a1 =>
        rw [hstep] at hs
        exact ih a1 (step_withinCapacity be a a1 c h hstep) hs

/-- C1: from a freshly constructed allocator, every state passed through by any sequence
of `getSource`, `getStreamSource`, `onUpdate` and `releaseAll` calls, whatever the backend
answers, holds at most 30 static slots and at most 2 streaming voices. -/
theorem pool_capacity_invariant (be0 : Backend) (calls : List (Backend × Call))
    (s : AudioAllocator) (hs : s ∈ reach (AudioAllocator.new be0) calls) :
    s.m_sources.length ≤ 30 ∧ s.m_streamSources.length ≤ 2 := by
  have h0 : WithinCapacity (AudioAllocator.new be0) := by
    unfold WithinCapacity AudioAllocator.new
    rw [init_sources, init_streamSources]
    exact ⟨Nat.zero_le _, Nat.zero_le _⟩
  exact reach_withinCapacity calls _ s h0 hs

/-- C1 at a concrete input: the state after one successful `getSource`. -/
theorem pool_capacity_invariant_witness :
    (getSource beOk (AudioAllocator.new beOk) (1 / 2) 1).st
      ∈ reach (AudioAllocator.new beOk) [(beOk, .getSource (1 / 2) 1), (beOk, .onUpdate)] ∧
    (getSource beOk (AudioAllocator.new beOk) (1 / 2) 1).st.m_sources.length ≤ 30 ∧
    (getSource beOk (AudioAllocator.new beOk) (1 / 2) 1).st.m_streamSources.length ≤ 2 :=
  have h : (getSource beOk (AudioAllocator.new beOk) (1 / 2) 1).st
      ∈ reach (AudioAllocator.new beOk) [(beOk, .getSource (1 / 2) 1), (beOk, .onUpdate)] := by
    simp [reach, step]
  ⟨h, pool_capacity_invariant beOk _ _ h⟩

/-! ## The buffer cache -/

theorem bufLookup_bufSet_self (m : List (lstring × Option Buffer)) (k : lstring)
    (b : Option Buffer) : bufLookup (bufSet m k b) k = some b := by
  induction m with
  | nil => simp [bufSet, bufLookup]
  | cons x rest ih =>
    unfold bufSet
    by_cases hx : (x.1 == k) = true
    · simp [hx, bufLookup]
    · unfold bufLookup at ih
      simp only [hx, Bool.false_eq_true, ↓reduceIte, bufLookup, List.find?_cons]
      exact ih

theorem bufLookup_bufSet_other (m : List (lstring × Option Buffer)) (k k1 : lstring)
    (b : Option Buffer) (hne : k ≠ k1) : bufLookup (bufSet m k b) k1 = bufLookup m k1 := by
  induction m with
  | nil =>
    simp [bufSet, bufLookup, hne]
  | cons x rest ih =>
    unfold bufSet
    by_cases hx : (x.1 == k) = true
    · have hxk : x.1 = k := by simpa using hx
      have hx1 : (x.1 == k1) = false := by
        rw [hxk]
        simpa using hne
      have hk1 : (k == k1) = false := by simpa using hne
      simp only [hx, ↓reduceIte, bufLookup, List.find?_cons, hx1, hk1]
    · unfold bufLookup at ih
      simp only [hx, Bool.false_eq_true, ↓reduceIte, bufLookup, List.find?_cons]
      cases (x.1 == k1)
      · exact ih
      · rfl

/-- The cache answers: `getBuffer` returns the stored handle. -/
theorem getBuffer_hit (be : Backend) (a : AudioAllocator) (f : lstring) (buf : Buffer)
    (hinit : (init be a).ret = true)
    (hl : bufLookup a.m_buffers f = some (some buf)) :
    getBuffer be a f = ⟨some buf, (init be a).st, (init be a).calls⟩ := by
  unfold getBuffer
  simp only [hinit, init_buffers, hl]
  rfl

/-- No handle stored: `getBuffer` asks the backend and stores the answer. -/
theorem getBuffer_miss (be : Backend) (a : AudioAllocator) (f : lstring)
    (hinit : (init be a).ret = true)
    (hl : ∀ buf, bufLookup a.m_buffers f ≠ some (some buf)) :
    getBuffer be a f
      = { ret := be.createBuffer f
          st := { (init be a).st with m_buffers := bufSet a.m_buffers f (be.createBuffer f) }
          calls := (init be a).calls ++ .createBuffer f ::
            (match be.createBuffer f with
              | some _ => []
              | none => [.logError]) } := by
  unfold getBuffer
  simp only [hinit, init_buffers]
  cases hlk : bufLookup a.m_buffers f with
  | none => cases be.createBuffer f <;> rfl
  | some o =>
    cases o with
    | none => cases be.createBuffer f <;> rfl
    | some buf => exact absurd hlk (hl buf)

theorem getBuffer_noinit (be : Backend) (a : AudioAllocator) (f : lstring)
    (hinit : (init be a).ret = false) :
    getBuffer be a f = ⟨none, (init be a).st, (init be a).calls⟩ := by
  unfold getBuffer
  simp only [hinit]
  rfl

theorem getBuffer_mgr_isSome (be : Backend) (a : AudioAllocator) (f : lstring)
    (h : a.m_mgr.isSome = true) : (getBuffer be a f).st.m_mgr.isSome = true := by
  have hi := init_of_mgr be a h
  have hinit : (init be a).ret = true := by rw [hi]
  by_cases hl : ∃ buf, bufLookup a.m_buffers f = some (some buf)
  · obtain ⟨buf, hl⟩ := hl
    rw [getBuffer_hit be a f buf hinit hl, hi]
    exact h
  · rw [getBuffer_miss be a f hinit (fun buf hb => hl ⟨buf, hb⟩), hi]
    exact h

/-- A hit: a cached identifier is returned without any backend call or change. -/
theorem getBuffer_of_cached (be : Backend) (a : AudioAllocator) (id : lstring) (h : Buffer)
    (hc : Cached a id h) : getBuffer be a id = ⟨some h, a, []⟩ := by
  have hi := init_of_mgr be a hc.1
  rw [getBuffer_hit be a id h (by rw [hi]) hc.2, hi]

theorem cached_of_getBuffer (be : Backend) (a : AudioAllocator) (id : lstring) (h : Buffer)
    (hret : (getBuffer be a id).ret = some h) : Cached (getBuffer be a id).st id h := by
  cases hinit : (init be a).ret with
  | false =>
    rw [getBuffer_noinit be a id hinit] at hret
    exact absurd hret (by simp)
  | true =>
    have hm := init_mgr_of_ret be a hinit
    by_cases hl : ∃ buf, bufLookup a.m_buffers id = some (some buf)
    · obtain ⟨buf, hl⟩ := hl
      rw [getBuffer_hit be a id buf hinit hl] at hret ⊢
      simp only [Option.some.injEq] at hret
      subst hret
      exact ⟨hm, by rw [init_buffers]; exact hl⟩
    · have hl1 : ∀ buf, bufLookup a.m_buffers id ≠ some (some buf) :=
        fun buf hb => hl ⟨buf, hb⟩
      rw [getBuffer_miss be a id hinit hl1] at hret ⊢
      simp only at hret
      refine ⟨hm, ?_⟩
      simp only
      rw [bufLookup_bufSet_self, hret]

theorem cached_getBuffer (be : Backend) (a : AudioAllocator) (id f : lstring) (h : Buffer)
    (hc : Cached a id h) : Cached (getBuffer be a f).st id h := by
  have hi := init_of_mgr be a hc.1
  have hinit : (init be a).ret = true := by rw [hi]
  by_cases hl : ∃ buf, bufLookup a.m_buffers f = some (some buf)
  · obtain ⟨buf, hl⟩ := hl
    rw [getBuffer_hit be a f buf hinit hl, hi]
    exact hc
  · have hl1 : ∀ buf, bufLookup a.m_buffers f ≠ some (some buf) :=
      fun buf hb => hl ⟨buf, hb⟩
    have hf : f ≠ id := by
      rintro rfl
      exact hl1 h hc.2
    rw [getBuffer_miss be a f hinit hl1, hi]
    refine ⟨hc.1, ?_⟩
    simp only
    rw [bufLookup_bufSet_other _ _ _ _ hf]
    exact hc.2

theorem cached_getBuffers (reqs : List (Backend × lstring)) (a : AudioAllocator)
    (id : lstring) (h : Buffer) (hc : Cached a id h) : Cached (getBuffers a reqs) id h := by
  induction reqs generalizing a with
  | nil => exact hc
  | cons r rest ih =>
    obtain ⟨be, f⟩ := r
    exact ih _ (cached_getBuffer be a id f h hc)

/-- C7: once `getBuffer(id)` has returned a handle `h`, after any further `getBuffer`
calls (any identifiers, any backend answers) `getBuffer(id)` returns `h` again, makes no
backend call (no load) and leaves the allocator, cache included, as it is. -/
theorem getBuffer_cache_hit (be : Backend) (a : AudioAllocator) (id : lstring) (h : Buffer)
    (hret : (getBuffer be a id).ret = some h) (mid : List (Backend × lstring))
    (be1 : Backend) :
    getBuffer be1 (getBuffers (getBuffer be a id).st mid) id
      = ⟨some h, getBuffers (getBuffer be a id).st mid, []⟩ :=
  getBuffer_of_cached be1 _ id h
    (cached_getBuffers mid _ id h (cached_of_getBuffer be a id h hret))

/-- C7 at a concrete input: "a" is loaded, then "b" is loaded and the load of "c" fails. -/
theorem getBuffer_cache_hit_witness :
    getBuffer beNoLoad
        (getBuffers (getBuffer beOk emptyPool "a").st [(beOk, "b"), (beNoLoad, "c")]) "a"
      = ⟨some 300, getBuffers (getBuffer beOk emptyPool "a").st [(beOk, "b"), (beNoLoad, "c")],
          []⟩ :=
  getBuffer_cache_hit beOk emptyPool "a" 300 rfl [(beOk, "b"), (beNoLoad, "c")] beNoLoad

theorem getBuffer_calls_other (be : Backend) (a : AudioAllocator) (id f : lstring)
    (hmgr : a.m_mgr.isSome = true) (hf : f ≠ id) :
    (getBuffer be a f).calls.count (.createBuffer id) = 0 := by
  have hi := init_of_mgr be a hmgr
  have hinit : (init be a).ret = true := by rw [hi]
  have hne : BackendCall.createBuffer f ≠ BackendCall.createBuffer id := by
    intro h
    exact hf (BackendCall.createBuffer.inj h)
  by_cases hl : ∃ buf, bufLookup a.m_buffers f = some (some buf)
  · obtain ⟨buf, hl⟩ := hl
    rw [getBuffer_hit be a f buf hinit hl, hi]
    rfl
  · rw [getBuffer_miss be a f hinit (fun buf hb => hl ⟨buf, hb⟩), hi]
    cases be.createBuffer f <;> simp [List.count_cons, hne]

theorem getBuffer_calls_self (be : Backend) (a : AudioAllocator) (id : lstring)
    (hmgr : a.m_mgr.isSome = true) (hn : NotCached a id) :
    (getBuffer be a id).calls.count (.createBuffer id) = 1 := by
  have hi := init_of_mgr be a hmgr
  have hinit : (init be a).ret = true := by rw [hi]
  rw [getBuffer_miss be a id hinit hn, hi]
  cases be.createBuffer id <;> simp [List.count_cons]

theorem notCached_getBuffer_other (be : Backend) (a : AudioAllocator) (id f : lstring)
    (hmgr : a.m_mgr.isSome = true) (hn : NotCached a id) (hf : f ≠ id) :
    NotCached (getBuffer be a f).st id := by
  have hi := init_of_mgr be a hmgr
  have hinit : (init be a).ret = true := by rw [hi]
  by_cases hl : ∃ buf, bufLookup a.m_buffers f = some (some buf)
  · obtain ⟨buf, hl⟩ := hl
    rw [getBuffer_hit be a f buf hinit hl, hi]
    exact hn
  · rw [getBuffer_miss be a f hinit (fun buf hb => hl ⟨buf, hb⟩), hi]
    intro h
    simp only
    rw [bufLookup_bufSet_other _ _ _ _ hf]
    exact hn h

theorem notCached_getBuffer_failed (be : Backend) (a : AudioAllocator) (id : lstring)
    (hmgr : a.m_mgr.isSome = true) (hn : NotCached a id) (hfail : be.createBuffer id = none) :
    (getBuffer be a id).ret = none ∧ NotCached (getBuffer be a id).st id ∧
      bufLookup (getBuffer be a id).st.m_buffers id = some none := by
  have hi := init_of_mgr be a hmgr
  have hinit : (init be a).ret = true := by rw [hi]
  rw [getBuffer_miss be a id hinit hn, hi]
  simp only [hfail, bufLookup_bufSet_self]
  refine ⟨trivial, ?_, trivial⟩
  intro h
  simp only [bufLookup_bufSet_self]
  simp

theorem count_of_cached (reqs : List (Backend × lstring)) (a : AudioAllocator)
    (id : lstring) (h : Buffer) (hc : Cached a id h) :
    (getBuffersLog a reqs).count (.createBuffer id) = 0 := by
  induction reqs generalizing a with
  | nil => rfl
  | cons r rest ih =>
    obtain ⟨be, f⟩ := r
    simp only [getBuffersLog, List.count_append]
    rw [ih _ (cached_getBuffer be a id f h hc)]
    by_cases hf : f = id
    · subst hf
      rw [getBuffer_of_cached be a f h hc]
      rfl
    · rw [getBuffer_calls_other be a id f hc.1 hf]

/-- C8 as stated fails: when the load of "x" fails, a second `getBuffer("x")` calls the
backend load function again, so it is called twice for one identifier, although the first
call left a null entry for "x" in the cache. -/
theorem getBuffer_failed_load_retried :
    (getBuffer beNoLoad emptyPool "x").ret = none ∧
    bufLookup (getBuffer beNoLoad emptyPool "x").st.m_buffers "x" = some none ∧
    (getBuffer beNoLoad (getBuffer beNoLoad emptyPool "x").st "x").calls
      = [.createBuffer "x", .logError] ∧
    (getBuffersLog emptyPool [(beNoLoad, "x"), (beNoLoad, "x")]).count (.createBuffer "x") = 2 := by
  decide

/-- C8 amended: over a sequence of `getBuffer` calls on an initialised allocator where `id`
is not yet cached and the backend answers every load of `id` with `res`: when the load
succeeds, the load function is called for `id` exactly once if `id` is requested (and not
at all otherwise); when the load fails, it is called once for every request of `id`. -/
theorem getBuffer_load_count (reqs : List (Backend × lstring)) (a : AudioAllocator)
    (id : lstring) (res : Option Buffer) (hmgr : a.m_mgr.isSome = true)
    (hn : NotCached a id) (hres : ∀ r ∈ reqs, r.1.createBuffer id = res) :
    (getBuffersLog a reqs).count (.createBuffer id)
      = if res.isSome then (if id ∈ reqs.map (·.2) then 1 else 0)
        else (reqs.map (·.2)).count id := by
  induction reqs generalizing a with
  | nil => simp [getBuffersLog]
  | cons r rest ih =>
    obtain ⟨be, f⟩ := r
    have hbe : be.createBuffer id = res := hres (be, f) (List.mem_cons_self _ _)
    have hrest : ∀ r ∈ rest, r.1.createBuffer id = res :=
      fun r hr => hres r (List.mem_cons_of_mem _ hr)
    have hmgr1 := getBuffer_mgr_isSome be a f hmgr
    simp only [getBuffersLog, List.count_append, List.map_cons, List.mem_cons]
    by_cases hf : f = id
    · subst hf
      rw [getBuffer_calls_self be a f hmgr hn]
      cases hr : res with
      | none =>
        rw [hr] at hbe
        have hfail := notCached_getBuffer_failed be a f hmgr hn hbe
        rw [ih _ hmgr1 hfail.2.1 hrest, hr]
        simp [List.count_cons, Nat.add_comm]
      | some h =>
        rw [hr] at hbe
        have hret : (getBuffer be a f).ret = some h := by
          rw [getBuffer_miss be a f (by rw [init_of_mgr be a hmgr]) hn]
          exact hbe
        rw [count_of_cached rest _ f h (cached_of_getBuffer be a f h hret)]
        simp
    · rw [getBuffer_calls_other be a id f hmgr hf,
        ih _ hmgr1 (notCached_getBuffer_other be a id f hmgr hn hf) hrest]
      have hf1 : ¬ id = f := fun h => hf h.symm
      have hbeq : (f == id) = false := by simpa using hf
      rw [List.count_cons, hbeq]
      simp only [hf1, false_or, Bool.false_eq_true, if_false, Nat.add_zero, Nat.zero_add]

/-- C8 amended, at a concrete input: "x" fails to load and is requested twice. -/
theorem getBuffer_load_count_witness :
    (getBuffersLog emptyPool [(beNoLoad, "x"), (beNoLoad, "y"), (beNoLoad, "x")]).count
      (.createBuffer "x") = 2 :=
  getBuffer_load_count [(beNoLoad, "x"), (beNoLoad, "y"), (beNoLoad, "x")] emptyPool "x" none rfl
    (by intro h; simp [emptyPool, bufLookup])
    (by
      intro r hr
      simp only [List.mem_cons, List.mem_singleton, List.not_mem_nil, or_false] at hr
      rcases hr with rfl | rfl | rfl <;> rfl)

/-! ## Claims on the cursor of `EventDescription` -/

theorem uintAddInt_one (c : Nat) (h : c + 1 < 2 ^ 32) : uintAddInt c 1 = c + 1 := by
  unfold uintAddInt
  have h1 : ((c : Int) + 1) % (2 ^ 32 : Int) = (c : Int) + 1 := by
    apply Int.emod_eq_of_lt
    · omega
    · have : ((c + 1 : Nat) : Int) < ((2 ^ 32 : Nat) : Int) := by exact_mod_cast h
      simpa using this
  rw [h1]
  omega

/-- Round-robin mode: `advance` sets the cursor to `(m_index + delta) % tracks`, the sum
taken in `uint`. -/
theorem advance_eq_round_robin (d : EventDescription) (layer0 : List lstring)
    (layers : List (List lstring)) (delta : Int) (rnd : List Nat)
    (hs : d.samples = layer0 :: layers) (hn : 1 < layer0.length)
    (hu : layer0.length < 2 ^ 32) (hf : d.flags &&& ROUND_ROBIN ≠ 0) :
    advance d delta rnd = some (uintAddInt d.m_index delta % layer0.length) := by
  unfold advance
  rw [hs]
  simp only [Nat.mod_eq_of_lt hu, not_le.mpr hn, if_false, hf, ne_eq, not_false_eq_true, if_true]

/-- Random mode: `advance` redraws until the value differs from the cursor. -/
theorem advance_eq_redraw (d : EventDescription) (layer0 : List lstring)
    (layers : List (List lstring)) (delta : Int) (rnd : List Nat)
    (hs : d.samples = layer0 :: layers) (hn : 1 < layer0.length)
    (hu : layer0.length < 2 ^ 32) (hf : d.flags &&& ROUND_ROBIN = 0) :
    advance d delta rnd = redraw layer0.length d.m_index rnd := by
  unfold advance
  rw [hs]
  simp only [Nat.mod_eq_of_lt hu, not_le.mpr hn, if_false, hf, ne_eq, not_true_eq_false]

theorem advanceSeq_round_robin (rnds : List (List Nat)) (d : EventDescription)
    (layer0 : List lstring) (layers : List (List lstring))
    (hs : d.samples = layer0 :: layers) (hn : 1 < layer0.length)
    (hu : layer0.length < 2 ^ 32) (hf : d.flags &&& ROUND_ROBIN ≠ 0)
    (hc : d.m_index < layer0.length) :
    advanceSeq d (rnds.map fun r => (1, r))
      = some { d with m_index := (d.m_index + rnds.length) % layer0.length } := by
  induction rnds generalizing d with
  | nil =>
    simp only [List.map_nil, advanceSeq, List.length_nil, Nat.add_zero, Nat.mod_eq_of_lt hc]
  | cons r rest ih =>
    simp only [List.map_cons, advanceSeq]
    rw [advance_eq_round_robin d layer0 layers 1 r hs hn hu hf,
      uintAddInt_one d.m_index (by omega)]
    simp only
    rw [ih { d with m_index := (d.m_index + 1) % layer0.length } hs hf
      (Nat.mod_lt _ (by omega))]
    simp only [List.length_cons, Nat.mod_add_mod]
    rw [Nat.add_assoc, Nat.add_comm 1]

/-- C11: on a round-robin description whose layer 0 has `n > 1` samples (a `uint` count)
and whose cursor is 0, after `k` successive `advance(1)` calls the cursor is `k mod n`. -/
theorem advance_round_robin_sequence (d : EventDescription) (layer0 : List lstring)
    (layers : List (List lstring)) (rnds : List (List Nat))
    (hs : d.samples = layer0 :: layers) (hn : 1 < layer0.length)
    (hu : layer0.length < 2 ^ 32) (hf : d.flags &&& ROUND_ROBIN ≠ 0) (h0 : d.m_index = 0) :
    advanceSeq d (rnds.map fun r => (1, r))
      = some { d with m_index := rnds.length % layer0.length } := by
  rw [advanceSeq_round_robin rnds d layer0 layers hs hn hu hf (by omega), h0, Nat.zero_add]

/-- C11 at a concrete input: three samples, four calls, the cursor ends at 1. -/
theorem advance_round_robin_sequence_witness :
    advanceSeq rr3 [(1, []), (1, []), (1, []), (1, [])] = some { rr3 with m_index := 1 } :=
  advance_round_robin_sequence rr3 ["a", "b", "c"] [] [[], [], [], []] rfl (by decide)
    (by decide) (by decide) rfl

theorem redraw_some (tracks last : Nat) (rnd : List Nat) (m : Nat) (ht : 0 < tracks)
    (h : redraw tracks last rnd = some m) : m < tracks ∧ m ≠ last := by
  induction rnd with
  | nil => simp [redraw] at h
  | cons raw rest ih =>
    unfold redraw at h
    simp only at h
    split at h
    · exact ih h
    · rename_i hne
      simp only [Option.some.injEq] at h
      subst h
      refine ⟨?_, hne⟩
      unfold randrange
      simp only [Nat.zero_add, Nat.sub_zero]
      exact Nat.mod_lt _ ht

theorem redraw_isSome (tracks last : Nat) (rnd : List Nat)
    (h : ∃ raw ∈ rnd, randrange 0 tracks raw ≠ last) : ∃ m, redraw tracks last rnd = some m := by
  induction rnd with
  | nil =>
    obtain ⟨raw, hraw, _⟩ := h
    simp at hraw
  | cons raw rest ih =>
    unfold redraw
    simp only
    split
    · rename_i heq
      apply ih
      obtain ⟨raw1, hmem, hne⟩ := h
      rcases List.mem_cons.mp hmem with rfl | hmem
      · exact absurd heq hne
      · exact ⟨raw1, hmem, hne⟩
    · exact ⟨_, rfl⟩

/-- C12: on a description without ROUND_ROBIN whose layer 0 has `n > 1` samples (a `uint`
count), whenever `advance` returns, the new cursor is below `n` and differs from the
cursor before the call; it returns as soon as one draw differs from the cursor; and a
further `advance` never yields the index the first one gave. -/
theorem advance_random_differs (d : EventDescription) (layer0 : List lstring)
    (layers : List (List lstring)) (delta : Int) (rnd : List Nat)
    (hs : d.samples = layer0 :: layers) (hn : 1 < layer0.length)
    (hu : layer0.length < 2 ^ 32) (hf : d.flags &&& ROUND_ROBIN = 0) :
    (∀ m, advance d delta rnd = some m → m < layer0.length ∧ m ≠ d.m_index) ∧
    ((∃ raw ∈ rnd, randrange 0 layer0.length raw ≠ d.m_index) →
      ∃ m, advance d delta rnd = some m) ∧
    (∀ m delta2 rnd2 m2, advance d delta rnd = some m →
      advance { d with m_index := m } delta2 rnd2 = some m2 → m2 ≠ m) := by
  rw [advance_eq_redraw d layer0 layers delta rnd hs hn hu hf]
  refine ⟨?_, ?_, ?_⟩
  · intro m hm
    exact redraw_some _ _ rnd m (by omega) hm
  · intro h
    exact redraw_isSome _ _ rnd h
  · intro m delta2 rnd2 m2 _ hm2
    rw [advance_eq_redraw { d with m_index := m } layer0 layers delta2 rnd2 hs hn hu hf] at hm2
    exact (redraw_some _ _ rnd2 m2 (by omega) hm2).2

/-- C12 at a concrete input: three samples, cursor 1, draws 4 (giving 1 again) and 5
(giving 2). -/
theorem advance_random_differs_witness :
    advance rnd3 1 [4, 5] = some 2 ∧ (2 : Nat) < 3 ∧ (2 : Nat) ≠ rnd3.m_index :=
  ⟨by decide,
    (advance_random_differs rnd3 ["a", "b", "c"] [] 1 [4, 5] rfl (by decide) (by decide)
      (by decide)).1 2 (by decide)⟩

/-! ## The postcondition of `onUpdate` -/

theorem vec_pop_take {α : Type} (v : List α) (i : Nat) (h : i < v.length) :
    (vec_pop v i).take i = v.take i := by
  rcases List.eq_nil_or_concat v with rfl | ⟨l, x, rfl⟩
  · simp at h
  · rw [List.concat_eq_append] at h ⊢
    have hi : i ≤ l.length := by simpa [Nat.lt_succ_iff] using h
    rcases Nat.lt_or_eq_of_le hi with hlt | rfl
    · rw [vec_pop_concat l x i hlt, List.take_append_of_le_length hi, List.set_take,
        List.set_eq_of_length_le (by simp)]
    · rw [vec_pop_concat_last, List.take_append_of_le_length (le_refl _)]

theorem vec_pop_drop_perm {α : Type} (v : List α) (i : Nat) (h : i < v.length) :
    ((vec_pop v i).drop i).Perm (v.drop (i + 1)) := by
  rcases List.eq_nil_or_concat v with rfl | ⟨l, x, rfl⟩
  · simp at h
  · rw [List.concat_eq_append] at h ⊢
    have hi : i ≤ l.length := by simpa [Nat.lt_succ_iff] using h
    rcases Nat.lt_or_eq_of_le hi with hlt | rfl
    · have hlt2 : i < (l.set i x).length := by simpa using hlt
      rw [vec_pop_concat l x i hlt, List.drop_append_of_le_length (Nat.succ_le_of_lt hlt),
        List.drop_eq_getElem_cons hlt2, List.drop_set_of_lt x l (Nat.lt_succ_self i)]
      simp only [List.getElem_set_self]
      exact (List.perm_append_singleton x _).symm
    · rw [vec_pop_concat_last]
      simp

/-- The loop of `onUpdate` keeps the slots before `i`, and of the slots from `i` on it
keeps those whose voice plays, with the gain refreshed, and drops the other voices. -/
theorem onUpdateLoop_perm (be : Backend) (fuel : Nat) (s : UpdateLoop)
    (hi : s.i ≤ s.srcs.length) (hfuel : s.srcs.length - s.i ≤ fuel) :
    ((onUpdateLoop be fuel s).srcs).Perm
      (s.srcs.take s.i
        ++ ((s.srcs.drop s.i).filter fun sd => be.isPlaying sd.source).map (refreshGain be)) ∧
    ((onUpdateLoop be fuel s).calls).Perm
      (s.calls
        ++ ((s.srcs.drop s.i).filter fun sd => !be.isPlaying sd.source).map
            fun sd => BackendCall.drop sd.source) := by
  induction fuel generalizing s with
  | zero =>
    have heq : s.i = s.srcs.length := by omega
    unfold onUpdateLoop
    rw [heq]
    simp
  | succ n ih =>
    unfold onUpdateLoop
    split
    · rename_i hnone
      have hle : s.srcs.length ≤ s.i := List.getElem?_eq_none_iff.mp hnone
      have heq : s.i = s.srcs.length := by omega
      rw [heq]
      simp
    · rename_i sd hsome
      have hlt : s.i < s.srcs.length := by
        by_contra hc
        rw [List.getElem?_eq_none (Nat.le_of_not_lt hc)] at hsome
        exact absurd hsome (by simp)
      have hsd : s.srcs[s.i] = sd := by
        rw [List.getElem?_eq_getElem hlt] at hsome
        exact Option.some.inj hsome
      have hdrop : s.srcs.drop s.i = sd :: s.srcs.drop (s.i + 1) := by
        rw [List.drop_eq_getElem_cons hlt, hsd]
      split
      · rename_i hplay
        have hnp : be.isPlaying sd.source = false := by simpa using hplay
        have hlen := vec_pop_length s.srcs s.i hlt
        obtain ⟨h1, h2⟩ := ih ⟨s.i, vec_pop s.srcs s.i, s.calls ++ [.drop sd.source]⟩
          (by simp only [hlen]; omega) (by simp only [hlen]; omega)
        simp only [vec_pop_take s.srcs s.i hlt] at h1
        have hp := vec_pop_drop_perm s.srcs s.i hlt
        constructor
        · refine h1.trans ?_
          rw [hdrop]
          simp only [List.filter_cons, hnp, Bool.false_eq_true, if_false]
          exact List.Perm.append_left _ ((hp.filter _).map _)
        · refine h2.trans ?_
          rw [hdrop]
          simp only [List.filter_cons, hnp, Bool.not_false, if_true, List.map_cons,
            List.append_assoc, List.singleton_append]
          exact List.Perm.append_left _ (List.Perm.cons _ ((hp.filter _).map _))
      · rename_i hplay
        have hpl : be.isPlaying sd.source = true := by simpa using hplay
        obtain ⟨h1, h2⟩ := ih
          ⟨s.i + 1, s.srcs.set s.i { sd with gain := be.calculateGain sd.source }, s.calls⟩
          (by simp only [List.length_set]; omega) (by simp only [List.length_set]; omega)
        simp only [List.drop_set_of_lt _ s.srcs (Nat.lt_succ_self s.i)] at h1 h2
        have htake : (s.srcs.set s.i { sd with gain := be.calculateGain sd.source }).take (s.i + 1)
            = s.srcs.take s.i ++ [refreshGain be sd] := by
          rw [List.take_succ, List.set_take, List.set_eq_of_length_le (by simp),
            List.getElem?_set_self hlt]
          rfl
        rw [htake] at h1
        constructor
        · refine h1.trans ?_
          rw [hdrop]
          simp only [List.filter_cons, hpl, if_true, List.map_cons, List.append_assoc,
            List.singleton_append]
          exact List.Perm.refl _
        · refine h2.trans ?_
          rw [hdrop]
          simp only [List.filter_cons, hpl, Bool.not_true, Bool.false_eq_true, if_false]
          exact List.Perm.refl _

/-- C13: after `onUpdate` the static slots are, as a multiset, the slots whose voice was
playing, each with its voice and priority kept and its gain set to the voice's current
attenuated gain; the voices dropped are exactly those of the slots whose voice was not
playing; the rest of the allocator is unchanged. -/
theorem onUpdate_postcondition (be : Backend) (a : AudioAllocator) :
    ((onUpdate be a).st.m_sources).Perm
      ((a.m_sources.filter fun sd => be.isPlaying sd.source).map
        fun sd => { sd with gain := be.calculateGain sd.source }) ∧
    ((onUpdate be a).calls).Perm
      ((a.m_sources.filter fun sd => !be.isPlaying sd.source).map
        fun sd => BackendCall.drop sd.source) ∧
    (onUpdate be a).st.m_streamSources = a.m_streamSources ∧
    (onUpdate be a).st.m_buffers = a.m_buffers ∧
    (onUpdate be a).st.m_mgr = a.m_mgr := by
  obtain ⟨h1, h2⟩ := onUpdateLoop_perm be a.m_sources.length ⟨0, a.m_sources, []⟩
    (Nat.zero_le _) (by simp)
  refine ⟨?_, ?_, rfl, rfl, rfl⟩
  · simpa [onUpdate, refreshGain] using h1
  · simpa [onUpdate] using h2

/-! ## Claims on `shutdown` and on an unavailable backend -/

theorem shutdown_mgr_none (a : AudioAllocator) (r : Outcome Unit)
    (h : shutdown a = some r) : r.st.m_mgr = none := by
  unfold shutdown at h
  cases hr : releaseAll { a with mutex := some .dummy } with
  | none => simp [hr] at h
  | some r1 =>
    simp only [hr, Option.some.injEq] at h
    subst h
    rfl

theorem releaseAll_of_mgr_none (a : AudioAllocator) (h : a.m_mgr = none) :
    releaseAll a = none := by
  unfold releaseAll
  simp only [h]

/-- C17 fails in the code: a first `shutdown()` leaves `m_mgr` null, and every second
`shutdown()` then runs `releaseAll()`, which ends with `m_mgr->releaseAllSources()` through
the null manager, so the second call never completes; shown for all states and on the
empty initialised pool. -/
theorem shutdown_twice_null_manager :
    (∀ a : AudioAllocator, ((shutdown a).bind fun r => shutdown r.st) = none) ∧
    shutdown emptyPool
      = some ⟨(), ⟨none, [], [], [], some .dummy⟩, [.releaseAllSources, .destroyAudioManager]⟩ ∧
    shutdown ⟨none, [], [], [], some .dummy⟩ = none := by
  refine ⟨?_, rfl, rfl⟩
  intro a
  cases h : shutdown a with
  | none => rfl
  | some r =>
    simp only [Option.bind]
    unfold shutdown
    rw [releaseAll_of_mgr_none { r.st with mutex := some .dummy } (shutdown_mgr_none a r h)]

theorem init_fails (be : Backend) (a : AudioAllocator) (hm : a.m_mgr = none)
    (hbe : be.createAudioManager = none) :
    init be a = ⟨false, a, [.createAudioManager]⟩ := by
  unfold init
  simp only [hm, hbe, Option.isSome_none, Bool.false_eq_true, if_false]
  cases a
  simp_all

/-- With the manager absent and a backend that cannot create one, `getSource`,
`getStreamSource` and `getBuffer` return none for all arguments and leave the allocator
as it is. -/
theorem unavailable_calls_fail (be : Backend) (a : AudioAllocator) (g : ℚ) (p : Int)
    (f : lstring) (hm : a.m_mgr = none) (hbe : be.createAudioManager = none) :
    ((getSource be a g p).ret = none ∧ (getSource be a g p).st = a) ∧
    ((getStreamSource be a f).ret = none ∧ (getStreamSource be a f).st = a) ∧
    ((getBuffer be a f).ret = none ∧ (getBuffer be a f).st = a) := by
  have hi := init_fails be a hm hbe
  refine ⟨?_, ?_, ?_⟩
  · unfold getSource getSourceCap
    by_cases hg : g < 1 / 1000
    · rw [if_pos hg]
      exact ⟨rfl, rfl⟩
    · rw [if_neg hg]
      simp only [hi]
      exact ⟨rfl, rfl⟩
  · unfold getStreamSource
    simp only [hi]
    exact ⟨rfl, rfl⟩
  · rw [getBuffer_noinit be a f (by rw [hi]), hi]
    exact ⟨rfl, rfl⟩

/-- C18 fails in the code at the used-voice count: for every backend, the allocator
constructed is either initialised or has a null `mutex`, and in the second case
`getSourcesUsed()`, which locks `*mutex`, has no result.  On the backend `beNoMgr`, which
cannot create a manager, the constructed allocator is empty with `m_mgr` and `mutex`
null; `getSource`, `getStreamSource` and `getBuffer` return none and leave it as it is
and the buffer count is 0, but `getSourcesUsed()` dereferences the null `mutex`. -/
theorem backend_unavailable_count_null_mutex :
    (∀ be0 : Backend, (AudioAllocator.new be0).m_mgr.isSome = true ∨
      getSourcesUsed (AudioAllocator.new be0) = none) ∧
    AudioAllocator.new beNoMgr = ⟨none, [], [], [], none⟩ ∧
    (∀ (g : ℚ) (p : Int),
      (getSource beNoMgr (AudioAllocator.new beNoMgr) g p).ret = none ∧
      (getSource beNoMgr (AudioAllocator.new beNoMgr) g p).st = AudioAllocator.new beNoMgr) ∧
    (∀ f : lstring,
      (getStreamSource beNoMgr (AudioAllocator.new beNoMgr) f).ret = none ∧
      (getStreamSource beNoMgr (AudioAllocator.new beNoMgr) f).st
        = AudioAllocator.new beNoMgr) ∧
    (∀ f : lstring,
      (getBuffer beNoMgr (AudioAllocator.new beNoMgr) f).ret = none ∧
      (getBuffer beNoMgr (AudioAllocator.new beNoMgr) f).st = AudioAllocator.new beNoMgr) ∧
    getBufferCount (AudioAllocator.new beNoMgr) = 0 ∧
    getSourcesUsed (AudioAllocator.new beNoMgr) = none := by
  have hnew : AudioAllocator.new beNoMgr = ⟨none, [], [], [], none⟩ := rfl
  refine ⟨?_, hnew, ?_, ?_, ?_, rfl, rfl⟩
  · intro be0
    cases hbe : be0.createAudioManager with
    | none =>
      right
      unfold AudioAllocator.new
      rw [init_fails be0 _ rfl hbe]
      rfl
    | some m =>
      left
      unfold AudioAllocator.new init
      simp [hbe]
  · intro g p
    exact (unavailable_calls_fail beNoMgr _ g p "" rfl rfl).1
  · intro f
    exact (unavailable_calls_fail beNoMgr _ 0 0 f rfl rfl).2.1
  · intro f
    exact (unavailable_calls_fail beNoMgr _ 0 0 f rfl rfl).2.2

/-! ## Claims on `SoundLayer` -/

theorem getSourceCap_ret_some (cap : Nat) (be : Backend) (a : AudioAllocator) (g : ℚ)
    (p : Int) (v : Voice) (h : (getSourceCap cap be a g p).ret = some v) :
    ∃ pre, (getSourceCap cap be a g p).st.m_sources = pre ++ [⟨v, p, g⟩] := by
  unfold getSourceCap at h ⊢
  split
  · rename_i hg
    rw [if_pos hg] at h
    exact absurd h (by simp)
  · rename_i hg
    rw [if_neg hg] at h
    simp only at h ⊢
    split
    · rename_i hi
      rw [if_pos hi] at h
      exact absurd h (by simp)
    · rename_i hi
      rw [if_neg hi] at h
      split
      · rename_i hc
        rw [if_pos hc] at h
        split
        · rename_i hs
          rw [if_pos hs] at h
          exact absurd h (by simp)
        · rename_i hs
          rw [if_neg hs] at h
          split
          · rename_i hnone
            rw [hnone] at h
            exact absurd h (by simp)
          · rename_i e he
            rw [he] at h
            simp only [createSlot_ret] at h
            rw [createSlot_sources, h]
            exact ⟨_, rfl⟩
      · rename_i hc
        rw [if_neg hc] at h
        simp only [createSlot_ret] at h
        rw [createSlot_sources, h]
        exact ⟨_, rfl⟩

theorem getBuffer_sources (be : Backend) (a : AudioAllocator) (f : lstring) :
    (getBuffer be a f).st.m_sources = a.m_sources := by
  cases hinit : (init be a).ret with
  | false =>
    rw [getBuffer_noinit be a f hinit]
    exact init_sources be a
  | true =>
    by_cases hl : ∃ buf, bufLookup a.m_buffers f = some (some buf)
    · obtain ⟨buf, hl⟩ := hl
      rw [getBuffer_hit be a f buf hinit hl]
      exact init_sources be a
    · rw [getBuffer_miss be a f hinit (fun buf hb => hl ⟨buf, hb⟩)]
      exact init_sources be a

theorem onUpdate_removes_silent (be : Backend) (a : AudioAllocator) (v : Voice)
    (hv : be.isPlaying v = false) :
    ∀ sd ∈ (onUpdate be a).st.m_sources, sd.source ≠ v := by
  intro sd hsd
  obtain ⟨h1, _⟩ := onUpdateLoop_perm be a.m_sources.length ⟨0, a.m_sources, []⟩
    (Nat.zero_le _) (by simp)
  have hmem : sd ∈ (a.m_sources.filter fun sd => be.isPlaying sd.source).map (refreshGain be) := by
    have := h1.subset hsd
    simpa using this
  obtain ⟨sd0, hsd0, rfl⟩ := List.mem_map.mp hmem
  have hplay : be.isPlaying sd0.source = true := (List.mem_filter.mp hsd0).2
  intro heq
  have : be.isPlaying sd0.source = false := by
    have h2 : (refreshGain be sd0).source = sd0.source := rfl
    rw [← h2, heq]
    exact hv
  rw [hplay] at this
  exact absurd this (by simp)

/-- The non-streaming path of `prepare` when `getSource` gives the voice `v` and
`getBuffer` gives nothing. -/
theorem prepare_eq_of_failed_buffer (epsilon : ℚ) (be : Backend) (jitter : ℚ) (l : SoundLayer)
    (se : EventDescription) (alloc : AudioAllocator) (gain3d : ℚ) (v : Voice)
    (hsrc : l.m_source = none) (hns : (l.getSamples se).isEmpty = false)
    (hvol : ¬ gain3d * se.volume * l.m_volume < epsilon) (hflag : se.flags &&& STREAM = 0)
    (hget : (getSource be alloc (gain3d * se.volume * l.m_volume) se.priority).ret = some v)
    (hbuf : (getBuffer be
        (getSource be alloc (gain3d * se.volume * l.m_volume) se.priority).st
        (l.getSample { se with m_index := l.clampIndex se })).ret = none) :
    l.prepare epsilon be jitter se alloc gain3d
      = ⟨none, l, l.clampIndex se,
          (getBuffer be
            (getSource be alloc (gain3d * se.volume * l.m_volume) se.priority).st
            (l.getSample { se with m_index := l.clampIndex se })).st,
          (getSource be alloc (gain3d * se.volume * l.m_volume) se.priority).calls
            ++ (getBuffer be
              (getSource be alloc (gain3d * se.volume * l.m_volume) se.priority).st
              (l.getSample { se with m_index := l.clampIndex se })).calls
            ++ [.stop v]⟩ := by
  unfold SoundLayer.prepare
  simp only [hsrc, hns, Bool.false_eq_true, if_false, hvol, hflag, ne_eq, not_true_eq_false,
    hget, hbuf]

/-- C14 as stated fails: on the empty pool with a backend that creates the voice 100 and
fails to load "a", `prepare` returns none and the layer holds no voice, but the voice was
only stopped and the pool still holds its slot when `prepare` returns. -/
theorem prepare_failed_buffer_keeps_slot :
    (layer0.prepare (1 / 10000) beNoLoad 0 single1 emptyPool 1).ret = none ∧
    (layer0.prepare (1 / 10000) beNoLoad 0 single1 emptyPool 1).layer.m_source = none ∧
    (layer0.prepare (1 / 10000) beNoLoad 0 single1 emptyPool 1).alloc.m_sources
      = [⟨100, 0, 1⟩] ∧
    (layer0.prepare (1 / 10000) beNoLoad 0 single1 emptyPool 1).calls
      = [.createStatic, .createBuffer "a", .logError, .stop 100] := by
  decide!

/-- C14 amended: for a non-STREAM description, when `prepare` gets the voice `v` from
`getSource` and `getBuffer` then returns none, `prepare` returns none, the layer is
unchanged and holds no voice, and the last backend call stops `v`; the slot of `v` is
still in the pool when `prepare` returns, and the next `onUpdate` in which `v` reports
not playing removes every slot of `v`. -/
theorem prepare_failed_buffer (epsilon : ℚ) (be : Backend) (jitter : ℚ) (l : SoundLayer)
    (se : EventDescription) (alloc : AudioAllocator) (gain3d : ℚ) (v : Voice)
    (hsrc : l.m_source = none) (hns : (l.getSamples se).isEmpty = false)
    (hvol : ¬ gain3d * se.volume * l.m_volume < epsilon) (hflag : se.flags &&& STREAM = 0)
    (hget : (getSource be alloc (gain3d * se.volume * l.m_volume) se.priority).ret = some v)
    (hbuf : (getBuffer be
        (getSource be alloc (gain3d * se.volume * l.m_volume) se.priority).st
        (l.getSample { se with m_index := l.clampIndex se })).ret = none) :
    (l.prepare epsilon be jitter se alloc gain3d).ret = none ∧
    (l.prepare epsilon be jitter se alloc gain3d).layer = l ∧
    (l.prepare epsilon be jitter se alloc gain3d).layer.m_source = none ∧
    (∃ pre, (l.prepare epsilon be jitter se alloc gain3d).calls = pre ++ [.stop v]) ∧
    (⟨v, se.priority, gain3d * se.volume * l.m_volume⟩ : SourceData)
      ∈ (l.prepare epsilon be jitter se alloc gain3d).alloc.m_sources ∧
    (∀ be2 : Backend, be2.isPlaying v = false →
      ∀ sd ∈ (onUpdate be2 (l.prepare epsilon be jitter se alloc gain3d).alloc).st.m_sources,
        sd.source ≠ v) := by
  rw [prepare_eq_of_failed_buffer epsilon be jitter l se alloc gain3d v hsrc hns hvol hflag
    hget hbuf]
  refine ⟨rfl, rfl, hsrc, ⟨_, rfl⟩, ?_, ?_⟩
  · simp only [getBuffer_sources]
    obtain ⟨pre, hpre⟩ := getSourceCap_ret_some kSoundSources be alloc _ _ v hget
    unfold getSource
    rw [hpre]
    simp
  · intro be2 hv
    exact onUpdate_removes_silent be2 _ v hv

/-- C14 amended, at a concrete input: the slot of voice 100 stays in the pool. -/
theorem prepare_failed_buffer_witness :
    (⟨100, 0, 1 * 1 * 1⟩ : SourceData)
      ∈ (layer0.prepare (1 / 10000) beNoLoad 0 single1 emptyPool 1).alloc.m_sources :=
  (prepare_failed_buffer (1 / 10000) beNoLoad 0 layer0 single1 emptyPool 1 100 rfl rfl
    (by decide!) rfl (by decide!) (by decide!)).2.2.2.2.1

/-- C15 as stated fails: the layer `playing7` holds a voice and the saved offset 5;
after `stop()` it holds no voice and the saved offset is still 5, not 0. -/
theorem stop_keeps_offset :
    playing7.stop.1.m_source = none ∧ playing7.stop.1.m_offset = 5 ∧
    playing7.stop.1.m_offset ≠ 0 := by
  decide!

/-- C15 amended: for a layer holding the voice `v`, after `stop()` the layer holds no
voice, every other field, the saved offset included, is unchanged, and the calls made
are unregister, stop and drop of `v`. -/
theorem stop_postcondition (l : SoundLayer) (v : Voice) (h : l.m_source = some v) :
    l.stop.1.m_source = none ∧ l.stop.1.m_offset = l.m_offset ∧
    l.stop.1 = { l with m_source := none } ∧
    l.stop.2 = [.unRegisterEventHandler v, .stop v, .drop v] := by
  unfold SoundLayer.stop
  rw [h]
  exact ⟨rfl, rfl, rfl, rfl⟩

/-- C15 amended, at a concrete input. -/
theorem stop_postcondition_witness :
    playing7.stop.1.m_source = none ∧ playing7.stop.1.m_offset = playing7.m_offset ∧
    playing7.stop.1 = { playing7 with m_source := none } ∧
    playing7.stop.2 = [.unRegisterEventHandler 7, .stop 7, .drop 7] :=
  stop_postcondition playing7 7 rfl

/-- C16 as stated fails: after `stop()` on `playing7` (allocator pointer set, saved
offset 5) a delivered `onStop` returns and sets the saved offset to 0. -/
theorem stale_onStop_resets_offset :
    playing7.stop.1.m_offset = 5 ∧
    playing7.stop.1.onStop emptyPool = some ({ playing7.stop.1 with m_offset := 0 }, []) ∧
    playing7.stop.1.onStop emptyPool ≠ some (playing7.stop.1, []) := by
  decide!

/-- C16 amended: on a layer whose allocator pointer is set, with the `mutex` of that
allocator not null, and on which `stop()` has completed: `onRelease` returns, changes
nothing and makes no call; `onStop` returns, makes no call, keeps the voice reference
absent and keeps volume, pitch and loop flag, and sets the saved offset to 0. -/
theorem stale_callback_after_stop (l : SoundLayer) (alloc : AudioAllocator)
    (hal : l.m_allocator = true) (hmx : alloc.mutex.isSome = true) :
    l.stop.1.onRelease alloc = some (l.stop.1, []) ∧
    l.stop.1.onStop alloc = some ({ l.stop.1 with m_offset := 0 }, []) ∧
    ({ l.stop.1 with m_offset := 0 } : SoundLayer).m_source = none ∧
    ({ l.stop.1 with m_offset := 0 } : SoundLayer).m_volume = l.stop.1.m_volume ∧
    ({ l.stop.1 with m_offset := 0 } : SoundLayer).m_pitch = l.stop.1.m_pitch ∧
    ({ l.stop.1 with m_offset := 0 } : SoundLayer).m_loop = l.stop.1.m_loop := by
  have hs : l.stop.1.m_source = none := by
    unfold SoundLayer.stop
    split
    · rfl
    · assumption
  have ha : l.stop.1.m_allocator = true := by
    unfold SoundLayer.stop
    split
    · exact hal
    · exact hal
  have hlock : l.stop.1.canLock alloc = true := by
    unfold SoundLayer.canLock
    rw [ha, hmx]
    rfl
  refine ⟨?_, ?_, hs, rfl, rfl, rfl⟩
  · unfold SoundLayer.onRelease
    rw [if_pos hlock, ← hs]
  · unfold SoundLayer.onStop
    rw [if_pos hlock]
    split
    · rename_i v hv
      rw [hs] at hv
      exact absurd hv (by simp)
    · rfl

/-- C16 amended, at a concrete input: the layer `playing7` after `stop()`. -/
theorem stale_callback_after_stop_witness :
    playing7.stop.1.onRelease emptyPool = some (playing7.stop.1, []) ∧
    playing7.stop.1.onStop emptyPool = some ({ playing7.stop.1 with m_offset := 0 }, []) :=
  have h := stale_callback_after_stop playing7 emptyPool rfl rfl
  ⟨h.1, h.2.1⟩

/-- A callback on a layer whose allocator pointer is null dereferences that pointer. -/
theorem callback_null_allocator (l : SoundLayer) (alloc : AudioAllocator)
    (hal : l.m_allocator = false) :
    l.onRelease alloc = none ∧ l.onStop alloc = none := by
  unfold SoundLayer.onRelease SoundLayer.onStop SoundLayer.canLock
  rw [hal]
  exact ⟨rfl, rfl⟩

/-! ## Claims on `SoundEvent` -/

/-- C19 fails in the code: `setDescription` (3 layers), `play2d`, `setDescription`
(1 layer) leaves the voices 101 and 102 in the layers 1 and 2; `stop()` then only visits
layer 0, stops no voice, and `isPlaying()`, which visits all three layers, is true for
every backend in which the never stopped voice 101 still plays. -/
theorem stop_after_shrinking_setDescription :
    played3.event.m_layers.map (·.m_source) = [some 100, some 101, some 102] ∧
    shrunkEvent.m_layerCount = 1 ∧
    shrunkEvent.stop.2 = [] ∧
    shrunkEvent.stop.1.m_layers.map (·.m_source) = [none, some 101, some 102] ∧
    (∀ be : Backend, be.isPlaying 101 = true →
      SoundEvent.isPlaying be shrunkEvent.stop.1 = true) := by
  have h1 : played3.event.m_layers.map (·.m_source) = [some 100, some 101, some 102] := by
    decide!
  have h2 : shrunkEvent.m_layerCount = 1 := by decide!
  have h3 : shrunkEvent.stop.2 = [] := by decide!
  have h4 : shrunkEvent.stop.1.m_layers.map (·.m_source) = [none, some 101, some 102] := by
    decide!
  refine ⟨h1, h2, h3, h4, ?_⟩
  intro be hbe
  unfold SoundEvent.isPlaying
  rw [List.any_eq_true]
  have hmem : (some 101 : Option Voice) ∈ shrunkEvent.stop.1.m_layers.map (·.m_source) := by
    rw [h4]
    simp
  obtain ⟨l, hl, hsrc⟩ := List.mem_map.mp hmem
  refine ⟨l, hl, ?_⟩
  unfold SoundLayer.isPlaying
  rw [hsrc]
  exact hbe

theorem foldl_set_length (f : Nat → SoundLayer) (count : Nat) (layers : List SoundLayer) :
    ((List.range count).foldl (fun ls k => ls.set k (f k)) layers).length = layers.length := by
  induction count with
  | zero => rfl
  | succ n ih =>
    rw [List.range_succ, List.foldl_append]
    simp only [List.foldl_cons, List.foldl_nil, List.length_set]
    exact ih

theorem foldl_set_getElem? (f : Nat → SoundLayer) (count : Nat) (layers : List SoundLayer)
    (i : Nat) (hc : count ≤ layers.length) :
    ((List.range count).foldl (fun ls k => ls.set k (f k)) layers)[i]?
      = if i < count then some (f i) else layers[i]? := by
  induction count with
  | zero => simp
  | succ n ih =>
    rw [List.range_succ, List.foldl_append]
    simp only [List.foldl_cons, List.foldl_nil]
    rw [List.getElem?_set, foldl_set_length, ih (by omega)]
    by_cases hn : n = i
    · subst hn
      simp only [if_true, Nat.lt_succ_self]
      rw [if_pos (by omega)]
    · rw [if_neg hn]
      by_cases hi : i < n
      · rw [if_pos hi, if_pos (by omega)]
      · rw [if_neg hi, if_neg (by omega)]

/-- C20: on an event with its array of 3 layers and a description with `uint` many
layers at address `p`, after `setDescription` the layer count is `min(layers of desc, 3)`
and every layer `i` below the count is the fresh layer bound to `(p, i)`, with `i` an
index into `desc.samples`; the layers from the count on are as before; after
`setDescription(NULL)` the layer count is 0. -/
theorem setDescription_binding (e : SoundEvent) (p : DescPtr) (d : EventDescription)
    (hlen : e.m_layers.length = kMaxSoundLayers) (hu : d.samples.length < 2 ^ 32) :
    (e.setDescription (some p) d).m_layerCount = min d.samples.length 3 ∧
    (e.setDescription (some p) d).m_se = some p ∧
    (∀ i, i < (e.setDescription (some p) d).m_layerCount →
      (e.setDescription (some p) d).m_layers[i]? = some (SoundLayer.bound (some p) i) ∧
      (SoundLayer.bound (some p) i).m_se = some p ∧
      (SoundLayer.bound (some p) i).m_layer = i ∧
      i < d.samples.length) ∧
    (∀ i, (e.setDescription (some p) d).m_layerCount ≤ i →
      (e.setDescription (some p) d).m_layers[i]? = e.m_layers[i]?) ∧
    (e.setDescription none d).m_layerCount = 0 := by
  have hcount : (e.setDescription (some p) d).m_layerCount = min d.samples.length 3 := by
    unfold SoundEvent.setDescription
    simp only [Nat.mod_eq_of_lt hu, kMaxSoundLayers]
  have hle : min d.samples.length 3 ≤ e.m_layers.length := by
    rw [hlen, kMaxSoundLayers]
    exact Nat.min_le_right _ _
  have hget : ∀ i, (e.setDescription (some p) d).m_layers[i]?
      = if i < min d.samples.length 3 then some (SoundLayer.bound (some p) i)
        else e.m_layers[i]? := by
    intro i
    unfold SoundEvent.setDescription
    simp only [Nat.mod_eq_of_lt hu, kMaxSoundLayers]
    exact foldl_set_getElem? _ _ _ i hle
  refine ⟨hcount, rfl, ?_, ?_, rfl⟩
  · intro i hi
    rw [hcount] at hi
    refine ⟨?_, rfl, rfl, lt_of_lt_of_le hi (Nat.min_le_left _ _)⟩
    rw [hget i, if_pos hi]
  · intro i hi
    rw [hcount] at hi
    rw [hget i, if_neg (by omega)]

/-- C20 at a concrete input: a fresh event and the three-layer description. -/
theorem setDescription_binding_witness :
    (SoundEvent.new.setDescription (some 1) layered3).m_layerCount = min layered3.samples.length 3 ∧
    (SoundEvent.new.setDescription (some 1) layered3).m_layers[2]?
      = some (SoundLayer.bound (some 1) 2) :=
  have h := setDescription_binding SoundEvent.new 1 layered3 rfl (by decide)
  ⟨h.1, (h.2.2.1 2 (by rw [h.1]; decide)).1⟩

/-! ## The pruning loop of `getStreamSource` -/

theorem vec_pop_getElem?_lt {α : Type} (v : List α) (i k : Nat) (hi : i < v.length)
    (hk : k < i) : (vec_pop v i)[k]? = v[k]? := by
  rw [← List.getElem?_take_of_lt hk, vec_pop_take v i hi, List.getElem?_take_of_lt hk]

/-- The pruning loop keeps the voices before `i` and, of the voices from `i` on, those
that play. -/
theorem streamLoop_perm (be : Backend) (fuel : Nat) (s : StreamLoop)
    (hi : s.i ≤ s.srcs.length) (hfuel : s.srcs.length - s.i ≤ fuel) :
    ((streamLoop be fuel s).srcs).Perm
      (s.srcs.take s.i ++ (s.srcs.drop s.i).filter fun v => be.isPlaying v) := by
  induction fuel generalizing s with
  | zero =>
    have heq : s.i = s.srcs.length := by omega
    unfold streamLoop
    rw [heq]
    simp
  | succ n ih =>
    unfold streamLoop
    split
    · rename_i hnone
      have hle : s.srcs.length ≤ s.i := List.getElem?_eq_none_iff.mp hnone
      have heq : s.i = s.srcs.length := by omega
      rw [heq]
      simp
    · rename_i v hsome
      have hlt : s.i < s.srcs.length := by
        by_contra hc
        rw [List.getElem?_eq_none (Nat.le_of_not_lt hc)] at hsome
        exact absurd hsome (by simp)
      have hv : s.srcs[s.i] = v := by
        rw [List.getElem?_eq_getElem hlt] at hsome
        exact Option.some.inj hsome
      have hdrop : s.srcs.drop s.i = v :: s.srcs.drop (s.i + 1) := by
        rw [List.drop_eq_getElem_cons hlt, hv]
      have htake : s.srcs.take (s.i + 1) = s.srcs.take s.i ++ [v] := by
        rw [List.take_succ, hsome]
        rfl
      split
      · rename_i hplay
        have hnp : be.isPlaying v = false := by simpa using hplay
        have hlen := vec_pop_length s.srcs s.i hlt
        have h1 := ih { s with srcs := vec_pop s.srcs s.i, calls := s.calls ++ [.stop v, .drop v] }
          (by simp only [hlen]; omega) (by simp only [hlen]; omega)
        simp only [vec_pop_take s.srcs s.i hlt] at h1
        refine h1.trans ?_
        rw [hdrop]
        simp only [List.filter_cons, hnp, Bool.false_eq_true, if_false]
        exact List.Perm.append_left _ ((vec_pop_drop_perm s.srcs s.i hlt).filter _)
      · rename_i hplay
        have hpl : be.isPlaying v = true := by simpa using hplay
        have hgoal : (s.srcs.take (s.i + 1) ++ (s.srcs.drop (s.i + 1)).filter fun v => be.isPlaying v)
            = s.srcs.take s.i ++ (s.srcs.drop s.i).filter fun v => be.isPlaying v := by
          rw [hdrop, htake]
          simp only [List.filter_cons, hpl, if_true, List.append_assoc, List.singleton_append]
        simp only
        split
        · have h1 := ih { s with minVol := be.getVolume v, minVolIdx := s.i, i := s.i + 1 }
            (by simp only; omega) (by simp only; omega)
          simp only at h1
          rw [hgoal] at h1
          exact h1
        · have h1 := ih { s with i := s.i + 1 } (by simp only; omega) (by simp only; omega)
          simp only at h1
          rw [hgoal] at h1
          exact h1

theorem streamInv_init (be : Backend) (srcs : List Voice) :
    StreamInv be ⟨0, srcs, 1, -1, []⟩ where
  played := by simp
  vol_le := le_refl _
  unset := fun _ => ⟨rfl, rfl⟩
  found := by
    intro h
    have : (0 : Int) ≤ -1 := h
    omega
  first := by
    intro j w hj _
    have : (j : Int) < -1 := hj
    omega

/-- The pruning loop keeps its invariant. -/
theorem streamInv_loop (be : Backend) (fuel : Nat) (s : StreamLoop) (inv : StreamInv be s) :
    StreamInv be (streamLoop be fuel s) := by
  induction fuel generalizing s with
  | zero => exact inv
  | succ n ih =>
    unfold streamLoop
    split
    · exact inv
    · rename_i v hsome
      have hlt : s.i < s.srcs.length := by
        by_contra hc
        rw [List.getElem?_eq_none (Nat.le_of_not_lt hc)] at hsome
        exact absurd hsome (by simp)
      have htake : s.srcs.take (s.i + 1) = s.srcs.take s.i ++ [v] := by
        rw [List.take_succ, hsome]
        rfl
      split
      · apply ih
        exact
          { played := by
              simp only [vec_pop_take s.srcs s.i hlt]
              exact inv.played
            vol_le := inv.vol_le
            unset := inv.unset
            found := by
              intro h
              obtain ⟨w, hw, hwi, hvol, hlt1⟩ := inv.found h
              exact ⟨w, by simp only [vec_pop_getElem?_lt s.srcs s.i _ hlt hwi]; exact hw,
                hwi, hvol, hlt1⟩
            first := by
              intro j w hj hw
              have h0 : 0 ≤ s.minVolIdx := by
                have : (j : Int) < s.minVolIdx := hj
                omega
              obtain ⟨_, _, hwi, _, _⟩ := inv.found h0
              have hji : j < s.i := by
                have : (j : Int) < s.minVolIdx := hj
                omega
              simp only [vec_pop_getElem?_lt s.srcs s.i j hlt hji] at hw
              exact inv.first j w hj hw }
      · rename_i hplay
        have hpl : be.isPlaying v = true := by simpa using hplay
        simp only
        split
        · rename_i hvol
          apply ih
          exact
            { played := by
                simp only [htake]
                intro w hw
                rcases List.mem_append.mp hw with h | h
                · exact ⟨(inv.played w h).1, le_of_lt (lt_of_lt_of_le hvol (inv.played w h).2)⟩
                · simp only [List.mem_singleton] at h
                  subst h
                  exact ⟨hpl, le_refl _⟩
              vol_le := le_of_lt (lt_of_lt_of_le hvol inv.vol_le)
              unset := by
                intro h
                have : (s.i : Int) < 0 := h
                omega
              found := by
                intro _
                exact ⟨v, by simpa using hsome, by simp, rfl, lt_of_lt_of_le hvol inv.vol_le⟩
              first := by
                intro j w hj hw
                have hji : j < s.i := by
                  have : (j : Int) < s.i := hj
                  omega
                have hmem : w ∈ s.srcs.take s.i := by
                  rw [← List.getElem?_take_of_lt hji] at hw
                  exact List.getElem?_mem hw
                exact lt_of_lt_of_le hvol (inv.played w hmem).2 }
        · rename_i hvol
          apply ih
          exact
            { played := by
                simp only [htake]
                intro w hw
                rcases List.mem_append.mp hw with h | h
                · exact inv.played w h
                · simp only [List.mem_singleton] at h
                  subst h
                  exact ⟨hpl, le_of_not_lt hvol⟩
              vol_le := inv.vol_le
              unset := inv.unset
              found := by
                intro h
                obtain ⟨w, hw, hwi, hv, hlt1⟩ := inv.found h
                exact ⟨w, hw, Nat.lt_succ_of_lt hwi, hv, hlt1⟩
              first := inv.first }

/-! ## Unfolding `getStreamSource` -/

theorem createStream_streamSources (be : Backend) (a : AudioAllocator) (f : lstring)
    (calls : List BackendCall) :
    (createStream be a f calls).st.m_streamSources
      = a.m_streamSources ++ (be.create f).toList := by
  unfold createStream
  cases be.create f <;> simp

theorem createStream_ret (be : Backend) (a : AudioAllocator) (f : lstring)
    (calls : List BackendCall) : (createStream be a f calls).ret = be.create f := by
  unfold createStream
  cases be.create f <;> rfl

/-- Below capacity `getStreamSource` only opens the new voice. -/
theorem getStreamSource_below (be : Backend) (a : AudioAllocator) (f : lstring)
    (hinit : (init be a).ret = true) (hlen : a.m_streamSources.length < kStreamSources) :
    getStreamSource be a f = createStream be (init be a).st f (init be a).calls := by
  unfold getStreamSource
  simp only [hinit, init_streamSources, not_le.mpr hlen]
  simp

/-- At capacity `getStreamSource` prunes, then evicts if the collection is still full. -/
theorem getStreamSource_full (be : Backend) (a : AudioAllocator) (f : lstring)
    (hinit : (init be a).ret = true) (hlen : kStreamSources ≤ a.m_streamSources.length) :
    getStreamSource be a f
      = if kStreamSources ≤ (pruneStreams be a.m_streamSources).srcs.length then
          if (pruneStreams be a.m_streamSources).minVolIdx < 0 then
            ⟨none, { (init be a).st with m_streamSources := (pruneStreams be a.m_streamSources).srcs },
              (init be a).calls ++ (pruneStreams be a.m_streamSources).calls⟩
          else
            match (pruneStreams be a.m_streamSources).srcs[
                (pruneStreams be a.m_streamSources).minVolIdx.toNat]? with
            | none =>
              ⟨none,
                { (init be a).st with m_streamSources := (pruneStreams be a.m_streamSources).srcs },
                (init be a).calls ++ (pruneStreams be a.m_streamSources).calls⟩
            | some v =>
              createStream be
                { (init be a).st with
                  m_streamSources := vec_pop (pruneStreams be a.m_streamSources).srcs
                    (pruneStreams be a.m_streamSources).minVolIdx.toNat }
                f ((init be a).calls ++ (pruneStreams be a.m_streamSources).calls
                  ++ [.stop v, .drop v])
        else
          createStream be
            { (init be a).st with m_streamSources := (pruneStreams be a.m_streamSources).srcs }
            f ((init be a).calls ++ (pruneStreams be a.m_streamSources).calls) := by
  unfold getStreamSource pruneStreams
  simp only [hinit, init_streamSources, hlen]
  simp

/-- The voices left by the pruning loop are, as a multiset, the playing ones. -/
theorem pruneStreams_perm (be : Backend) (srcs : List Voice) :
    ((pruneStreams be srcs).srcs).Perm (srcs.filter fun v => be.isPlaying v) := by
  have h := streamLoop_perm be srcs.length ⟨0, srcs, 1, -1, []⟩ (Nat.zero_le _) (by simp)
  simpa [pruneStreams] using h

theorem pruneStreams_mem (be : Backend) (srcs : List Voice) (v : Voice)
    (h : v ∈ (pruneStreams be srcs).srcs) : v ∈ srcs ∧ be.isPlaying v = true := by
  have := (pruneStreams_perm be srcs).subset h
  simpa using this

/-! ## Claims on `getStreamSource` -/

/-- C21 as stated fails: with the single streaming voice 5, which has finished playing,
`getStreamSource` does not prune; voice 5 is still in the collection afterwards. -/
theorem getStreamSource_no_prune_below_capacity :
    beSilent.isPlaying 5 = false ∧
    (getStreamSource beSilent oneStream "f").st.m_streamSources = [5, 200] ∧
    5 ∈ (getStreamSource beSilent oneStream "f").st.m_streamSources := by
  decide

/-- C21 amended: with the manager available, when fewer than 2 streaming voices are held
`getStreamSource` removes nothing and only appends the voice it opens; when 2 or more
are held, the collection afterwards consists of voices that were held before and were
playing, followed by the voice opened, if one was opened. -/
theorem getStreamSource_prunes_at_capacity (be : Backend) (a : AudioAllocator) (f : lstring)
    (hinit : (init be a).ret = true) :
    (a.m_streamSources.length < kStreamSources →
      (getStreamSource be a f).st.m_streamSources
        = a.m_streamSources ++ (be.create f).toList) ∧
    (kStreamSources ≤ a.m_streamSources.length →
      ∃ kept extra, (getStreamSource be a f).st.m_streamSources = kept ++ extra ∧
        (∀ v ∈ kept, v ∈ a.m_streamSources ∧ be.isPlaying v = true) ∧
        (extra = [] ∨ extra = (be.create f).toList)) := by
  constructor
  · intro hlen
    rw [getStreamSource_below be a f hinit hlen, createStream_streamSources,
      init_streamSources]
  · intro hlen
    rw [getStreamSource_full be a f hinit hlen]
    have hmem := pruneStreams_mem be a.m_streamSources
    split
    · split
      · exact ⟨_, [], (List.append_nil _).symm, hmem, Or.inl rfl⟩
      · split
        · exact ⟨_, [], (List.append_nil _).symm, hmem, Or.inl rfl⟩
        · rename_i v hv
          have hi : (pruneStreams be a.m_streamSources).minVolIdx.toNat
              < (pruneStreams be a.m_streamSources).srcs.length := by
            by_contra hc
            rw [List.getElem?_eq_none (Nat.le_of_not_lt hc)] at hv
            exact absurd hv (by simp)
          refine ⟨_, _, createStream_streamSources _ _ _ _, ?_, Or.inr rfl⟩
          intro w hw
          apply hmem
          exact List.eraseIdx_subset _ _ ((vec_pop_perm _ _ hi).subset hw)
    · exact ⟨_, _, createStream_streamSources _ _ _ _, hmem, Or.inr rfl⟩

/-- C21 amended, at a concrete input: two finished voices are both removed. -/
theorem getStreamSource_prunes_at_capacity_witness :
    ∃ kept extra, (getStreamSource beSilent twoStreams "f").st.m_streamSources = kept ++ extra ∧
      (∀ v ∈ kept, v ∈ twoStreams.m_streamSources ∧ beSilent.isPlaying v = true) ∧
      (extra = [] ∨ extra = (beSilent.create "f").toList) :=
  (getStreamSource_prunes_at_capacity beSilent twoStreams "f" rfl).2 (by decide)

/-- The pruning loop on two playing voices: nothing is removed; the index recorded is
that of the first voice of least volume if that volume is below 1. -/
theorem pruneStreams_pair (be : Backend) (x y : Voice) (hx : be.isPlaying x = true)
    (hy : be.isPlaying y = true) :
    pruneStreams be [x, y]
      = ⟨2, [x, y],
          if be.getVolume y < (if be.getVolume x < 1 then be.getVolume x else 1) then
            be.getVolume y
          else (if be.getVolume x < 1 then be.getVolume x else 1),
          if be.getVolume y < (if be.getVolume x < 1 then be.getVolume x else 1) then 1
          else (if be.getVolume x < 1 then 0 else -1),
          []⟩ := by
  unfold pruneStreams
  simp only [List.length_cons, List.length_nil, streamLoop, List.getElem?_cons_zero, hx,
    Bool.not_true, Bool.false_eq_true, if_false, Nat.zero_add]
  by_cases h1 : be.getVolume x < 1
  · simp only [h1, if_true, List.getElem?_cons_succ, List.getElem?_cons_zero, hy,
      Bool.not_true, Bool.false_eq_true, if_false]
    by_cases h2 : be.getVolume y < be.getVolume x
    · simp [h2]
    · simp [h2]
  · simp only [h1, if_false, List.getElem?_cons_succ, List.getElem?_cons_zero, hy,
      Bool.not_true, Bool.false_eq_true]
    by_cases h2 : be.getVolume y < 1
    · simp [h2]
    · simp [h2]

theorem createStream_calls (be : Backend) (a : AudioAllocator) (f : lstring)
    (calls : List BackendCall) :
    (createStream be a f calls).calls
      = calls ++ .create f :: (match be.create f with
          | some _ => []
          | none => [.logDebug]) := by
  unfold createStream
  cases be.create f <;> rfl

/-- The calls of `getStreamSource` on two playing voices, by recorded index. -/
theorem getStreamSource_pair (be : Backend) (a : AudioAllocator) (f : lstring) (x y : Voice)
    (hinit : (init be a).ret = true) (hs : a.m_streamSources = [x, y])
    (hx : be.isPlaying x = true) (hy : be.isPlaying y = true) :
    getStreamSource be a f
      = if (pruneStreams be [x, y]).minVolIdx < 0 then
          ⟨none, { (init be a).st with m_streamSources := [x, y] }, (init be a).calls⟩
        else
          match ([x, y] : List Voice)[(pruneStreams be [x, y]).minVolIdx.toNat]? with
          | none => ⟨none, { (init be a).st with m_streamSources := [x, y] }, (init be a).calls⟩
          | some v =>
            createStream be
              { (init be a).st with
                m_streamSources := vec_pop [x, y] (pruneStreams be [x, y]).minVolIdx.toNat }
              f ((init be a).calls ++ [.stop v, .drop v]) := by
  have hsrcs : (pruneStreams be [x, y]).srcs = [x, y] := by
    rw [pruneStreams_pair be x y hx hy]
  have hcalls : (pruneStreams be [x, y]).calls = [] := by
    rw [pruneStreams_pair be x y hx hy]
  have hlen : kStreamSources ≤ a.m_streamSources.length := by
    rw [hs]
    exact le_refl _
  rw [getStreamSource_full be a f hinit hlen, hs, hsrcs, hcalls]
  simp only [List.length_cons, List.length_nil, kStreamSources, Nat.zero_add, Nat.reduceAdd,
    le_refl, if_true, List.append_nil]

/-- C26: with the manager available and two streaming voices `x`, `y` held that both
play: if one of the volumes is below 1, `getStreamSource` stops, drops and removes the
voice of least volume (`x` on a tie, the first in collection order), then opens the new
voice; if both volumes are at least 1 it returns none, calls nothing further and leaves
the collection as it is. -/
theorem getStreamSource_evicts_quietest (be : Backend) (a : AudioAllocator) (f : lstring)
    (x y : Voice) (hinit : (init be a).ret = true) (hs : a.m_streamSources = [x, y])
    (hx : be.isPlaying x = true) (hy : be.isPlaying y = true) :
    ((be.getVolume x < 1 ∨ be.getVolume y < 1) → be.getVolume y < be.getVolume x →
      (getStreamSource be a f).ret = be.create f ∧
      (getStreamSource be a f).st.m_streamSources = x :: (be.create f).toList ∧
      ∃ tail, (getStreamSource be a f).calls
        = (init be a).calls ++ [.stop y, .drop y, .create f] ++ tail) ∧
    ((be.getVolume x < 1 ∨ be.getVolume y < 1) → ¬ be.getVolume y < be.getVolume x →
      (getStreamSource be a f).ret = be.create f ∧
      (getStreamSource be a f).st.m_streamSources = y :: (be.create f).toList ∧
      ∃ tail, (getStreamSource be a f).calls
        = (init be a).calls ++ [.stop x, .drop x, .create f] ++ tail) ∧
    (¬ be.getVolume x < 1 → ¬ be.getVolume y < 1 →
      (getStreamSource be a f).ret = none ∧
      (getStreamSource be a f).st.m_streamSources = [x, y] ∧
      (getStreamSource be a f).calls = (init be a).calls) := by
  have hpair := getStreamSource_pair be a f x y hinit hs hx hy
  rw [pruneStreams_pair be x y hx hy] at hpair
  simp only at hpair
  refine ⟨?_, ?_, ?_⟩
  · intro hq hyx
    have hidx : (if be.getVolume y < (if be.getVolume x < 1 then be.getVolume x else 1) then
        (1 : Int) else (if be.getVolume x < 1 then 0 else -1)) = 1 := by
      by_cases h1 : be.getVolume x < 1
      · simp [h1, hyx]
      · rcases hq with h | h
        · exact absurd h h1
        · simp [h1, h]
    rw [hidx] at hpair
    have hrun : getStreamSource be a f
        = createStream be { (init be a).st with m_streamSources := [x] } f
            ((init be a).calls ++ [.stop y, .drop y]) := hpair
    rw [hrun]
    refine ⟨createStream_ret _ _ _ _, createStream_streamSources _ _ _ _, ?_⟩
    rw [createStream_calls]
    exact ⟨(match be.create f with
      | some _ => []
      | none => [.logDebug]), by simp⟩
  · intro hq hyx
    have h1 : be.getVolume x < 1 := by
      rcases hq with h | h
      · exact h
      · exact lt_of_le_of_lt (not_lt.mp hyx) h
    have hidx : (if be.getVolume y < (if be.getVolume x < 1 then be.getVolume x else 1) then
        (1 : Int) else (if be.getVolume x < 1 then 0 else -1)) = 0 := by
      simp [h1, hyx]
    rw [hidx] at hpair
    have hrun : getStreamSource be a f
        = createStream be { (init be a).st with m_streamSources := [y] } f
            ((init be a).calls ++ [.stop x, .drop x]) := hpair
    rw [hrun]
    refine ⟨createStream_ret _ _ _ _, createStream_streamSources _ _ _ _, ?_⟩
    rw [createStream_calls]
    exact ⟨(match be.create f with
      | some _ => []
      | none => [.logDebug]), by simp⟩
  · intro h1 h2
    have hidx : (if be.getVolume y < (if be.getVolume x < 1 then be.getVolume x else 1) then
        (1 : Int) else (if be.getVolume x < 1 then 0 else -1)) = -1 := by
      simp [h1, h2]
    rw [hidx] at hpair
    have hrun : getStreamSource be a f
        = ⟨none, { (init be a).st with m_streamSources := [x, y] }, (init be a).calls⟩ := hpair
    rw [hrun]
    exact ⟨rfl, rfl, rfl⟩

/-- C26 at a concrete input: voices 5 (volume 1/2) and 6 (volume 4/5), voice 5 is
evicted and the voice 200 opened. -/
theorem getStreamSource_evicts_quietest_witness :
    (getStreamSource beQuiet5 twoStreams "f").ret = beQuiet5.create "f" ∧
    (getStreamSource beQuiet5 twoStreams "f").st.m_streamSources
      = 6 :: (beQuiet5.create "f").toList ∧
    ∃ tail, (getStreamSource beQuiet5 twoStreams "f").calls
      = (init beQuiet5 twoStreams).calls ++ [.stop 5, .drop 5, .create "f"] ++ tail :=
  (getStreamSource_evicts_quietest beQuiet5 twoStreams "f" 5 6 rfl rfl rfl rfl).2.1
    (Or.inl (by norm_num [beQuiet5])) (by norm_num [beQuiet5])

/-- C30: whenever the pruning loop of `getStreamSource` ends with `minVolIdx >= 0`, this
index is inside the collection as the loop left it (removals only touch indices behind
the recorded one) and denotes a voice that was held before, plays, has a volume below 1
and is the first voice of least volume; with the manager available and the collection
at capacity before and after the loop, that voice is the one `getStreamSource` stops,
drops and removes. -/
theorem stream_eviction_index_valid (be : Backend) (a : AudioAllocator) (f : lstring)
    (hidx : 0 ≤ (pruneStreams be a.m_streamSources).minVolIdx) :
    ∃ v, (pruneStreams be a.m_streamSources).srcs[
          (pruneStreams be a.m_streamSources).minVolIdx.toNat]? = some v ∧
      (pruneStreams be a.m_streamSources).minVolIdx.toNat
        < (pruneStreams be a.m_streamSources).srcs.length ∧
      v ∈ a.m_streamSources ∧ be.isPlaying v = true ∧ be.getVolume v < 1 ∧
      (∀ w ∈ (pruneStreams be a.m_streamSources).srcs, be.getVolume v ≤ be.getVolume w) ∧
      (∀ (j : Nat) (w : Voice), j < (pruneStreams be a.m_streamSources).minVolIdx.toNat →
        (pruneStreams be a.m_streamSources).srcs[j]? = some w →
        be.getVolume v < be.getVolume w) ∧
      ((init be a).ret = true → kStreamSources ≤ a.m_streamSources.length →
        kStreamSources ≤ (pruneStreams be a.m_streamSources).srcs.length →
        getStreamSource be a f
          = createStream be
              { (init be a).st with
                m_streamSources := vec_pop (pruneStreams be a.m_streamSources).srcs
                  (pruneStreams be a.m_streamSources).minVolIdx.toNat }
              f ((init be a).calls ++ (pruneStreams be a.m_streamSources).calls
                ++ [.stop v, .drop v])) := by
  have inv : StreamInv be (pruneStreams be a.m_streamSources) :=
    streamInv_loop be _ _ (streamInv_init be a.m_streamSources)
  have hdone : (pruneStreams be a.m_streamSources).srcs.length
      ≤ (pruneStreams be a.m_streamSources).i :=
    streamLoop_done be a.m_streamSources.length ⟨0, a.m_streamSources, 1, -1, []⟩ (by simp)
  obtain ⟨v, hv, _, hvol, hlt1⟩ := inv.found hidx
  have hi : (pruneStreams be a.m_streamSources).minVolIdx.toNat
      < (pruneStreams be a.m_streamSources).srcs.length := by
    by_contra hc
    rw [List.getElem?_eq_none (Nat.le_of_not_lt hc)] at hv
    exact absurd hv (by simp)
  have hmem := pruneStreams_mem be a.m_streamSources v (List.getElem?_mem hv)
  refine ⟨v, hv, hi, hmem.1, hmem.2, by rw [hvol]; exact hlt1, ?_, ?_, ?_⟩
  · intro w hw
    rw [hvol]
    have hw2 : w ∈ (pruneStreams be a.m_streamSources).srcs.take
        (pruneStreams be a.m_streamSources).i := by
      rw [List.take_of_length_le hdone]
      exact hw
    exact (inv.played w hw2).2
  · intro j w hj hw
    rw [hvol]
    exact inv.first j w (by omega) hw
  · intro hinit hlen hlen2
    rw [getStreamSource_full be a f hinit hlen, if_pos hlen2, if_neg (not_lt.mpr hidx)]
    simp only [hv]

/-- C30 at a concrete input: voices 5 (volume 1/2) and 6 (volume 4/5), index 0. -/
theorem stream_eviction_index_valid_witness :
    (0 : Int) ≤ (pruneStreams beQuiet5 twoStreams.m_streamSources).minVolIdx ∧
    ∃ v, (pruneStreams beQuiet5 twoStreams.m_streamSources).srcs[
          (pruneStreams beQuiet5 twoStreams.m_streamSources).minVolIdx.toNat]? = some v ∧
      beQuiet5.isPlaying v = true ∧ beQuiet5.getVolume v < 1 :=
  have h0 : (0 : Int) ≤ (pruneStreams beQuiet5 twoStreams.m_streamSources).minVolIdx := by
    decide!
  have h := stream_eviction_index_valid beQuiet5 twoStreams "f" h0
  ⟨h0, h.choose, h.choose_spec.1, h.choose_spec.2.2.2.1, h.choose_spec.2.2.2.2.1⟩

/-! ## Further claims on `calculateGain`, `getSource` and `SoundLayer` -/

/-- C23: with `refDist > 0`, `rolloff >= 0` and `maxDist >= refDist`, for every listener
distance the denominator `refDist + rolloff * (d - refDist)` of `calculateGain`, with `d`
the clamped distance, is positive and the gain lies in `(0, 1]`. -/
theorem calculateGain_range (dist0 refDist maxDist rolloff : ℚ) (hr : 0 < refDist)
    (hk : 0 ≤ rolloff) (hm : refDist ≤ maxDist) :
    0 < refDist + rolloff * (fmin (fmax dist0 refDist) maxDist - refDist) ∧
    calculateGain dist0 refDist maxDist rolloff
      = refDist / (refDist + rolloff * (fmin (fmax dist0 refDist) maxDist - refDist)) ∧
    0 < calculateGain dist0 refDist maxDist rolloff ∧
    calculateGain dist0 refDist maxDist rolloff ≤ 1 := by
  have hd : refDist ≤ fmin (fmax dist0 refDist) maxDist := by
    rw [fmax_eq_max, fmin_eq_min]
    exact le_min (le_max_right _ _) hm
  have hprod : 0 ≤ rolloff * (fmin (fmax dist0 refDist) maxDist - refDist) :=
    mul_nonneg hk (sub_nonneg.mpr hd)
  have hden : 0 < refDist + rolloff * (fmin (fmax dist0 refDist) maxDist - refDist) := by
    linarith
  have heq : calculateGain dist0 refDist maxDist rolloff
      = refDist / (refDist + rolloff * (fmin (fmax dist0 refDist) maxDist - refDist)) := rfl
  refine ⟨hden, heq, ?_, ?_⟩
  · rw [heq]
    exact div_pos hr hden
  · rw [heq, div_le_one hden]
    linarith

/-- C23 at a concrete input: refDist 1, maxDist 10, rolloff 2, distance 4. -/
theorem calculateGain_range_witness :
    (0 : ℚ) < calculateGain 4 1 10 2 ∧ calculateGain 4 1 10 2 ≤ 1 :=
  (calculateGain_range 4 1 10 2 (by norm_num) (by norm_num) (by norm_num)).2.2

/-- C24: on a layer that holds no voice and whose sample list is not empty, when
`gain3d * volume * m_volume` is below `epsilon`, `prepare` returns none, leaves the layer,
the cursor and the allocator as they are and makes no backend call. -/
theorem prepare_silent_drop (epsilon : ℚ) (be : Backend) (jitter : ℚ) (l : SoundLayer)
    (se : EventDescription) (alloc : AudioAllocator) (gain3d : ℚ)
    (hsrc : l.m_source = none) (hns : (l.getSamples se).isEmpty = false)
    (hvol : gain3d * se.volume * l.m_volume < epsilon) :
    l.prepare epsilon be jitter se alloc gain3d = ⟨none, l, se.m_index, alloc, []⟩ ∧
    (l.prepare epsilon be jitter se alloc gain3d).layer.m_source = none ∧
    (l.prepare epsilon be jitter se alloc gain3d).alloc.m_sources = alloc.m_sources ∧
    (l.prepare epsilon be jitter se alloc gain3d).alloc.m_streamSources
      = alloc.m_streamSources ∧
    (l.prepare epsilon be jitter se alloc gain3d).alloc.m_buffers = alloc.m_buffers := by
  have h : l.prepare epsilon be jitter se alloc gain3d = ⟨none, l, se.m_index, alloc, []⟩ := by
    unfold SoundLayer.prepare
    simp only [hsrc, hns, Bool.false_eq_true, if_false, hvol, if_true]
  rw [h]
  exact ⟨rfl, hsrc, rfl, rfl, rfl⟩

/-- C24 at a concrete input: gain 1/100000 against epsilon 1/10000. -/
theorem prepare_silent_drop_witness :
    layer0.prepare (1 / 10000) beOk 0 single1 emptyPool (1 / 100000)
      = ⟨none, layer0, single1.m_index, emptyPool, []⟩ :=
  (prepare_silent_drop (1 / 10000) beOk 0 layer0 single1 emptyPool (1 / 100000) rfl rfl
    (by decide!)).1

/-- C25: with fewer than 30 static slots held, an audible request and a backend that
creates the voice `v`, `getSource` returns `v`, stops and drops nothing, and the slots
afterwards are the previous slots, in order, followed by the slot `{v, priority, gain}`;
streaming voices and buffer cache are unchanged. -/
theorem getSource_under_capacity (be : Backend) (a : AudioAllocator) (g : ℚ) (p : Int)
    (v : Voice) (hlen : a.m_sources.length < kSoundSources) (hg : 1 / 1000 ≤ g)
    (hinit : (init be a).ret = true) (hv : be.createStatic = some v) :
    (getSource be a g p).ret = some v ∧
    (getSource be a g p).st.m_sources = a.m_sources ++ [⟨v, p, g⟩] ∧
    (getSource be a g p).calls = (init be a).calls ++ [.createStatic] ∧
    (getSource be a g p).st.m_streamSources = a.m_streamSources ∧
    (getSource be a g p).st.m_buffers = a.m_buffers := by
  unfold getSource
  rw [getSourceCap_below kSoundSources be a g p (not_lt.mpr hg) hinit hlen]
  refine ⟨?_, ?_, createSlot_calls _ _ _ _ _, ?_, ?_⟩
  · rw [createSlot_ret, hv]
  · rw [createSlot_sources, hv, init_sources]
    rfl
  · rw [createSlot_streamSources, init_streamSources]
  · unfold createSlot
    rw [hv]
    exact init_buffers be a

/-- C25 at a concrete input: one slot held, request of gain 1/4 and priority 2. -/
theorem getSource_under_capacity_witness :
    (getSource beOk oneSlot (1 / 4) 2).ret = some 100 ∧
    (getSource beOk oneSlot (1 / 4) 2).st.m_sources = oneSlot.m_sources ++ [⟨100, 2, 1 / 4⟩] :=
  have h := getSource_under_capacity beOk oneSlot (1 / 4) 2 100 (by decide) (by norm_num)
    rfl rfl
  ⟨h.1, h.2.1⟩

/-- C27: for a layer holding the voice `v`, the backend calls of `stop()` are unregister,
stop, drop of `v` in this order: the first call unregisters the handler, and the
unregister call comes before every stop and every drop call. -/
theorem stop_unregisters_first (l : SoundLayer) (v : Voice) (h : l.m_source = some v) :
    l.stop.2 = [.unRegisterEventHandler v, .stop v, .drop v] ∧
    l.stop.2.head? = some (.unRegisterEventHandler v) ∧
    (∀ (i j : Nat) (w u : Voice) (c : BackendCall),
      l.stop.2[i]? = some (.unRegisterEventHandler u) → l.stop.2[j]? = some c →
      (c = .stop w ∨ c = .drop w) → i < j) := by
  have hcalls : l.stop.2 = [.unRegisterEventHandler v, .stop v, .drop v] := by
    unfold SoundLayer.stop
    rw [h]
  rw [hcalls]
  refine ⟨rfl, rfl, ?_⟩
  intro i j w u c hi hj hc
  have hi0 : i = 0 := by
    match i, hi with
    | 0, _ => rfl
    | 1, hi => simp at hi
    | 2, hi => simp at hi
    | n + 3, hi => simp at hi
  subst hi0
  match j, hj with
  | 0, hj =>
    simp only [List.getElem?_cons_zero, Option.some.injEq] at hj
    subst hj
    rcases hc with hc | hc <;> simp at hc
  | n + 1, _ => exact Nat.succ_pos n

/-- C27 at a concrete input. -/
theorem stop_unregisters_first_witness :
    playing7.stop.2 = [.unRegisterEventHandler 7, .stop 7, .drop 7] ∧
    playing7.stop.2.head? = some (.unRegisterEventHandler 7) :=
  have h := stop_unregisters_first playing7 7 rfl
  ⟨h.1, h.2.1⟩

theorem clampIndex_lt (l : SoundLayer) (se : EventDescription)
    (hu : (l.getSamples se).length < 2 ^ 32) (hns : (l.getSamples se).isEmpty = false) :
    l.clampIndex se < (l.getSamples se).length ∧ l.clampIndex se ≤ se.m_index := by
  have hpos : 0 < (l.getSamples se).length := by
    cases hl : l.getSamples se with
    | nil => rw [hl] at hns; simp at hns
    | cons x xs => simp
  have h32 : (2 : Nat) ^ 32 = 4294967296 := by norm_num
  unfold SoundLayer.clampIndex
  rw [h32] at hu ⊢
  constructor
  · have : ((l.getSamples se).length % 4294967296 + (4294967296 - 1)) % 4294967296
        = (l.getSamples se).length - 1 := by omega
    rw [this]
    have := Nat.min_le_right se.m_index ((l.getSamples se).length - 1)
    omega
  · exact Nat.min_le_left _ _

/-- C29: for a sample list of `uint` length: when the list of the layer is empty,
`prepare` on a layer without voice returns none without reading a sample or changing the
cursor; otherwise the value `prepare` stores in the cursor before `getSample` is below
the length of the list (and not above the old cursor), and `getSample` reads the element
at that index; whatever `prepare` does, the cursor afterwards is the old or that value.
When `prepare` gets as far as the pool (no voice held, list not empty, volume not below
`epsilon`), the sample it reads is the element `s` the list holds at the clamped index:
for a STREAM description `prepare` is the outcome of `getStreamSource` on `s`, otherwise
it is the outcome of `getSource` followed by `getBuffer` on `s`. -/
theorem prepare_cursor_valid (epsilon : ℚ) (be : Backend) (jitter : ℚ) (l : SoundLayer)
    (se : EventDescription) (alloc : AudioAllocator) (gain3d : ℚ)
    (hu : (l.getSamples se).length < 2 ^ 32) :
    ((l.getSamples se).isEmpty = true → l.m_source = none →
      l.prepare epsilon be jitter se alloc gain3d = ⟨none, l, se.m_index, alloc, []⟩) ∧
    ((l.getSamples se).isEmpty = false →
      l.clampIndex se < (l.getSamples se).length ∧ l.clampIndex se ≤ se.m_index ∧
      (l.getSamples se)[l.clampIndex se]?
        = some (l.getSample { se with m_index := l.clampIndex se })) ∧
    ((l.prepare epsilon be jitter se alloc gain3d).m_index = se.m_index ∨
      ((l.getSamples se).isEmpty = false ∧
        (l.prepare epsilon be jitter se alloc gain3d).m_index = l.clampIndex se)) ∧
    (l.m_source = none → (l.getSamples se).isEmpty = false →
      ¬ gain3d * se.volume * l.m_volume < epsilon →
      ∃ s, (l.getSamples se)[l.clampIndex se]? = some s ∧
        l.clampIndex se < (l.getSamples se).length ∧
        (se.flags &&& STREAM ≠ 0 →
          l.prepare epsilon be jitter se alloc gain3d
            = match (getStreamSource be alloc s).ret with
              | none => ⟨none, l, l.clampIndex se, (getStreamSource be alloc s).st,
                  (getStreamSource be alloc s).calls⟩
              | some v => l.configure jitter se (l.clampIndex se)
                  (getStreamSource be alloc s).st v (getStreamSource be alloc s).calls) ∧
        (¬ (se.flags &&& STREAM ≠ 0) →
          l.prepare epsilon be jitter se alloc gain3d
            = match (getSource be alloc (gain3d * se.volume * l.m_volume) se.priority).ret with
              | none => ⟨none, l, l.clampIndex se,
                  (getSource be alloc (gain3d * se.volume * l.m_volume) se.priority).st,
                  (getSource be alloc (gain3d * se.volume * l.m_volume) se.priority).calls⟩
              | some v =>
                match (getBuffer be
                    (getSource be alloc (gain3d * se.volume * l.m_volume) se.priority).st
                    s).ret with
                | none => ⟨none, l, l.clampIndex se,
                    (getBuffer be
                      (getSource be alloc (gain3d * se.volume * l.m_volume) se.priority).st
                      s).st,
                    (getSource be alloc (gain3d * se.volume * l.m_volume) se.priority).calls
                      ++ (getBuffer be
                        (getSource be alloc (gain3d * se.volume * l.m_volume) se.priority).st
                        s).calls
                      ++ [.stop v]⟩
                | some buf => l.configure jitter se (l.clampIndex se)
                    (getBuffer be
                      (getSource be alloc (gain3d * se.volume * l.m_volume) se.priority).st
                      s).st v
                    ((getSource be alloc (gain3d * se.volume * l.m_volume) se.priority).calls
                      ++ (getBuffer be
                        (getSource be alloc (gain3d * se.volume * l.m_volume) se.priority).st
                        s).calls
                      ++ [.setBuffer v buf]))) := by
  refine ⟨?_, ?_, ?_, ?_⟩
  · intro hempty hsrc
    unfold SoundLayer.prepare
    simp only [hsrc, hempty, if_true]
  · intro hns
    obtain ⟨h1, h2⟩ := clampIndex_lt l se hu hns
    refine ⟨h1, h2, ?_⟩
    have hsame : l.getSamples { se with m_index := l.clampIndex se } = l.getSamples se := rfl
    unfold SoundLayer.getSample
    rw [hsame]
    simp only [List.getD_eq_getElem?_getD, List.getElem?_eq_getElem h1, Option.getD_some]
  · unfold SoundLayer.prepare
    split
    · exact Or.inl rfl
    · split
      · exact Or.inl rfl
      · rename_i hns
        have hns1 : (l.getSamples se).isEmpty = false := by simpa using hns
        simp only
        split
        · exact Or.inl rfl
        · split
          · split
            · exact Or.inr ⟨hns1, rfl⟩
            · exact Or.inr ⟨hns1, rfl⟩
          · split
            · exact Or.inr ⟨hns1, rfl⟩
            · split
              · exact Or.inr ⟨hns1, rfl⟩
              · exact Or.inr ⟨hns1, rfl⟩
  · intro hsrc hns hvol
    obtain ⟨h1, _⟩ := clampIndex_lt l se hu hns
    have hs : l.getSample { se with m_index := l.clampIndex se }
        = (l.getSamples se)[l.clampIndex se] := by
      have hsame : l.getSamples { se with m_index := l.clampIndex se } = l.getSamples se := rfl
      unfold SoundLayer.getSample
      rw [hsame]
      simp only [List.getD_eq_getElem?_getD, List.getElem?_eq_getElem h1, Option.getD_some]
    have hne : ¬ (l.getSamples se).isEmpty = true := by rw [hns]; simp
    refine ⟨(l.getSamples se)[l.clampIndex se], List.getElem?_eq_getElem h1, h1, ?_, ?_⟩
    · intro hst
      unfold SoundLayer.prepare
      simp only [hsrc]
      rw [if_neg hne, if_neg hvol]
      simp only [hs]
      rw [if_pos hst]
    · intro hst
      unfold SoundLayer.prepare
      simp only [hsrc]
      rw [if_neg hne, if_neg hvol]
      simp only [hs]
      rw [if_neg hst]

/-- C29 at a concrete input: a list of two samples and the cursor at 7, clamped to 1;
the pool is asked for the sample "b" at index 1. -/
theorem prepare_cursor_valid_witness :
    ∃ s, (layer0.getSamples pair7Stream)[layer0.clampIndex pair7Stream]? = some s ∧
      layer0.clampIndex pair7Stream < (layer0.getSamples pair7Stream).length ∧
      (pair7Stream.flags &&& STREAM ≠ 0 →
        layer0.prepare (1 / 10000) beOk 0 pair7Stream emptyPool 1
          = match (getStreamSource beOk emptyPool s).ret with
            | none => ⟨none, layer0, layer0.clampIndex pair7Stream,
                (getStreamSource beOk emptyPool s).st, (getStreamSource beOk emptyPool s).calls⟩
            | some v => layer0.configure 0 pair7Stream (layer0.clampIndex pair7Stream)
                (getStreamSource beOk emptyPool s).st v
                (getStreamSource beOk emptyPool s).calls) :=
  have h := (prepare_cursor_valid (1 / 10000) beOk 0 layer0 pair7Stream emptyPool 1
    (by decide)).2.2.2 rfl rfl (by norm_num [pair7Stream, pair7, rr3, layer0, SoundLayer.bound,
      SoundLayer.new])
  h.elim fun s hs => ⟨s, hs.1, hs.2.1, hs.2.2.1⟩

/-- The streaming path at a concrete input: with the list ["a", "b"] and the cursor at 7,
the file `prepare` asks the pool to open is "b", the element at the clamped index 1. -/
theorem prepare_stream_reads_clamped :
    layer0.clampIndex pair7Stream = 1 ∧ layer0.getSamples pair7Stream = ["a", "b"] ∧
    BackendCall.create "b" ∈ (layer0.prepare (1 / 10000) beOk 0 pair7Stream emptyPool 1).calls ∧
    BackendCall.create "" ∉ (layer0.prepare (1 / 10000) beOk 0 pair7Stream emptyPool 1).calls := by
  decide!

/-! ## The scan of `getSource` and the simplified rule -/

theorem lexLt_iff (a b : Int × ℚ) :
    lexLt a b = true ↔ a.1 < b.1 ∨ (a.1 = b.1 ∧ a.2 < b.2) := by
  unfold lexLt
  simp

/-- C28: for every slot collection and request, the eviction scan of `getSource` records
the index that the simplified rule selects (the first slot minimal in `(priority, gain)`,
if it is strictly below the request), and records none (`-1`) exactly when the
simplified rule selects none. -/
theorem scan_refines_simplified (srcs : List SourceData) (g : ℚ) (p : Int) :
    (scan srcs g p).minIdx
      = (match selectSimplified srcs g p with
          | some i => (i : Int)
          | none => -1) ∧
    ((scan srcs g p).minIdx < 0 ↔ selectSimplified srcs g p = none) := by
  have inv := scanInv_scan srcs g p
  by_cases hneg : (scan srcs g p).minIdx < 0
  · obtain ⟨h1, h2, h3⟩ := inv.unset hneg
    have hnone : selectSimplified srcs g p = none := by
      unfold selectSimplified
      split
      · rfl
      · split
        · rfl
        · rename_i e he
          have hmem : e ∈ srcs := List.getElem?_mem he
          have hnot : lexLt (slotKey e) (p, g) = false := by
            rw [Bool.eq_false_iff]
            intro hlt
            rw [lexLt_iff] at hlt
            have hp := inv.pri_min e hmem
            rw [h2] at hp
            rcases hlt with hlt | ⟨heq, hlt⟩
            · exact absurd hlt (not_lt.mpr hp)
            · have hv := inv.vol_min e hmem (by rw [h2]; exact heq)
              rw [h3] at hv
              exact absurd hlt (not_lt.mpr hv)
          rw [hnot]
          rfl
    rw [hnone]
    exact ⟨h1, ⟨fun _ => rfl, fun _ => hneg⟩⟩
  · have hfound : 0 ≤ (scan srcs g p).minIdx := not_lt.mp hneg
    obtain ⟨e, he, hep, heg, helig⟩ := inv.found hfound
    have hk : (scan srcs g p).minIdx.toNat < srcs.length := by
      by_contra hc
      rw [List.getElem?_eq_none (Nat.le_of_not_lt hc)] at he
      exact absurd he (by simp)
    have hek : srcs[(scan srcs g p).minIdx.toNat] = e := by
      rw [List.getElem?_eq_getElem hk] at he
      exact Option.some.inj he
    have hmin : ∀ x ∈ srcs, lexLt (slotKey x) (slotKey e) = false := by
      intro x hx
      rw [Bool.eq_false_iff]
      intro hlt
      rw [lexLt_iff] at hlt
      have hp := inv.pri_min x hx
      rcases hlt with hlt | ⟨heq, hlt⟩
      · have : x.priority < e.priority := hlt
        omega
      · have heq1 : x.priority = e.priority := heq
        have hv := inv.vol_min x hx (heq1.trans hep)
        have : x.gain < e.gain := hlt
        rw [heg] at this
        exact absurd this (not_lt.mpr hv)
    have hfind : srcs.findIdx? (fun e => srcs.all fun x => !lexLt (slotKey x) (slotKey e))
        = some (scan srcs g p).minIdx.toNat := by
      rw [List.findIdx?_eq_some_iff_getElem]
      refine ⟨hk, ?_, ?_⟩
      · rw [hek, List.all_eq_true]
        intro x hx
        rw [hmin x hx]
        rfl
      · intro j hj
        have hjlen : j < srcs.length := Nat.lt_trans hj hk
        have hjget : srcs[j]? = some srcs[j] := List.getElem?_eq_getElem hjlen
        have hfirst := inv.first j srcs[j] (by omega) hjget
        have hjmem : srcs[j] ∈ srcs := List.getElem_mem hjlen
        have hemem : e ∈ srcs := List.getElem?_mem he
        simp only [List.all_eq_true, Bool.not_eq_true', not_forall]
        refine ⟨e, hemem, ?_⟩
        rw [Bool.eq_false_iff, not_not, lexLt_iff]
        have hp := inv.pri_min srcs[j] hjmem
        rcases lt_or_eq_of_le hp with hlt | heq
        · exact Or.inl (by show e.priority < srcs[j].priority; rw [hep]; exact hlt)
        · have hv := inv.vol_min srcs[j] hjmem heq.symm
          rcases lt_or_eq_of_le hv with hlt2 | heq2
          · exact Or.inr ⟨by show e.priority = srcs[j].priority; rw [hep]; exact heq,
              by show e.gain < srcs[j].gain; rw [heg]; exact hlt2⟩
          · exact absurd ⟨heq.symm, heq2.symm⟩ hfirst
    have hbelow : lexLt (slotKey e) (p, g) = true := by
      rw [lexLt_iff]
      have hle : e.priority ≤ p := hep ▸ inv.pri_le
      rcases lt_or_eq_of_le hle with hlt | heq
      · exact Or.inl hlt
      · rcases helig with h | h
        · exact Or.inl h
        · exact Or.inr ⟨heq, h⟩
    have hsome : selectSimplified srcs g p = some (scan srcs g p).minIdx.toNat := by
      unfold selectSimplified
      rw [hfind]
      simp only [he, hbelow, if_true]
    rw [hsome]
    refine ⟨(Int.toNat_of_nonneg hfound).symm, ⟨fun h => absurd h hneg, fun h => ?_⟩⟩
    exact absurd h (by simp)

end AudioEvent
